import Mathlib

/-!
Shallow embedding of the PaperClip dispatch engine (src/bot.py) and proofs
about its specified behaviour.

Modelling conventions, used throughout:
* Decoded JSON values (Python objects produced by json loading) are modelled
  by the inductive `Json`.  Numbers are modelled as `Int` (the program never
  relies on float-specific behaviour for the claims below).
* Python exceptions are modelled by `Except String` for adapter-internal
  operations, and by the `Failure` type at the dispatcher boundary; the
  string payloads of errors are diagnostic only.
* Wall-clock time is modelled by a `Nat` that is constant during one call of
  `send_prompt` (the source calls time.time() repeatedly; within one
  submission only the ordering of the readings against the stored cooldown
  timestamps matters, and the comparisons are strict exactly as in the
  source).
* The network is abstracted by an oracle: `call_provider` receives the
  `NetResult` of its single HTTP round trip, and the dispatcher receives a
  function from provider and attempt number to `CallOutcome`.  Request
  construction (URLs, headers, bodies) has no influence on any claim and is
  not modelled.
* Character classes of the source regexes (\w, \s, \d) are modelled over the
  ASCII range, which covers every input appearing in the claims.
-/

namespace PaperClip

/-- Decoded JSON / Python value. -/
inductive Json where
  | null : Json
  | bool (b : Bool) : Json
  | num (n : Int) : Json
  | str (s : String) : Json
  | arr (xs : List Json) : Json
  | obj (kvs : List (String × Json)) : Json

mutual

/-- Structural equality of decoded JSON values (Python ==). -/
def Json.beq : Json → Json → Bool
  | .null, .null => true
  | .bool a, .bool b => a = b
  | .num a, .num b => a = b
  | .str a, .str b => a = b
  | .arr xs, .arr ys => Json.beqA xs ys
  | .obj xs, .obj ys => Json.beqO xs ys
  | _, _ => false

/-- Structural equality on JSON arrays. -/
def Json.beqA : List Json → List Json → Bool
  | [], [] => true
  | x :: xs, y :: ys => Json.beq x y && Json.beqA xs ys
  | _, _ => false

/-- Structural equality on JSON objects. -/
def Json.beqO : List (String × Json) → List (String × Json) → Bool
  | [], [] => true
  | kv :: xs, lw :: ys => kv.1 = lw.1 && Json.beq kv.2 lw.2 && Json.beqO xs ys
  | _, _ => false

end

instance : BEq Json := ⟨Json.beq⟩

/-- Python truthiness of a decoded JSON value. -/
def Json.truthy : Json → Bool
  | .null => false
  | .bool b => b
  | .num n => n != 0
  | .str s => s != ""
  | .arr xs => !xs.isEmpty
  | .obj kvs => !kvs.isEmpty

/-- The backtick character (written numerically to keep the source plain). -/
def btChar : Char := Char.ofNat 96

/-- Is `c` a regex word character (\w), ASCII model. -/
def isWordChar (c : Char) : Bool := c.isAlphanum || c = '_'

/-- Boolean prefix test on character lists (Python startswith / regex anchoring). -/
def listPrefixEq : List Char → List Char → Bool
  | [], _ => true
  | _ :: _, [] => false
  | a :: as, b :: bs => a = b && listPrefixEq as bs

/-- Substring containment on character lists (Python `needle in hay`). -/
def containsSub (needle : List Char) : List Char → Bool
  | [] => listPrefixEq needle []
  | h :: t => listPrefixEq needle (h :: t) || containsSub needle t

/-- Python `needle in hay` for strings. -/
def pyInStr (needle hay : String) : Bool := containsSub needle.toList hay.toList

/-- Python str.lower (ASCII model). -/
def pyLower (s : String) : String := ⟨s.toList.map Char.toLower⟩

/-- Python str.strip(). -/
def pyStrip (s : String) : String :=
  ⟨((s.toList.dropWhile Char.isWhitespace).reverse.dropWhile Char.isWhitespace).reverse⟩

/-- Python str.rstrip(). -/
def pyRstrip (s : String) : String :=
  ⟨(s.toList.reverse.dropWhile Char.isWhitespace).reverse⟩

/-- Split a character list at newline characters (auxiliary for splitlines). -/
def splitNl (cs : List Char) : List (List Char) :=
  cs.foldr
    (fun c acc =>
      match acc with
      | [] => [[c]]
      | s :: rest => if c = '\n' then [] :: s :: rest else (c :: s) :: rest)
    [[]]

/-- Python str.splitlines() (newline-only model; the claims never use \r). -/
def pySplitlines (s : String) : List String :=
  if s = "" then []
  else
    let parts := (splitNl s.toList).map (fun l => (⟨l⟩ : String))
    if parts.getLast? = some "" then parts.dropLast else parts

/-- Python sep.join(list). -/
def joinWith (sep : String) : List String → String
  | [] => ""
  | [x] => x
  | x :: xs => x ++ sep ++ joinWith sep xs

/-- Python s[:n] (first n characters). -/
def takeChars (n : Nat) (s : String) : String := ⟨s.toList.take n⟩

/-- Boolean string-prefix test used in statements. -/
def strStartsWith (s pre : String) : Bool := listPrefixEq pre.toList s.toList

/-- Numeric value of a big-endian list of ASCII digits (int(...) of the matched group). -/
def digitsVal (ds : List Char) : Nat := ds.foldl (fun a c => a * 10 + (c.toNat - 48)) 0

/-- JSON string escaping for the dumps model (quote, backslash, newline). -/
def escapeJson (s : String) : String :=
  ⟨s.toList.foldr
    (fun c acc =>
      if c = '"' then '\\' :: '"' :: acc
      else if c = '\\' then '\\' :: '\\' :: acc
      else if c = '\n' then '\\' :: 'n' :: acc
      else c :: acc) []⟩

mutual

/-- Model of Python json.dumps with its default separators. -/
def Json.dumps : Json → String
  | .null => "null"
  | .bool true => "true"
  | .bool false => "false"
  | .num n => toString n
  | .str s => "\"" ++ escapeJson s ++ "\""
  | .arr xs => "[" ++ Json.dumpsA xs ++ "]"
  | .obj kvs => "\x7b" ++ Json.dumpsO kvs ++ "\x7d"

/-- dumps of the elements of a JSON array, comma separated. -/
def Json.dumpsA : List Json → String
  | [] => ""
  | [x] => Json.dumps x
  | x :: xs => Json.dumps x ++ ", " ++ Json.dumpsA xs

/-- dumps of the entries of a JSON object, comma separated. -/
def Json.dumpsO : List (String × Json) → String
  | [] => ""
  | [kv] => "\"" ++ escapeJson kv.1 ++ "\": " ++ Json.dumps kv.2
  | kv :: kvs => "\"" ++ escapeJson kv.1 ++ "\": " ++ Json.dumps kv.2 ++ ", " ++ Json.dumpsO kvs

end

/-- Model of Python str() on a decoded JSON value.  For lists and dicts the
rendering delegates to the dumps model: Python would use repr quoting instead,
but every use in the source only ever feeds the result to regexes that demand
a digit or "PT" first, and both renderings are bracket-led, so the difference
is unobservable. -/
def pyToStr : Json → String
  | .str s => s
  | .num n => toString n
  | .bool true => "True"
  | .bool false => "False"
  | .null => "None"
  | .arr xs => (Json.arr xs).dumps
  | .obj kvs => (Json.obj kvs).dumps

/-- Python `needle in container` where the container is an arbitrary object:
key membership for dicts, element membership for lists, substring for
strings, TypeError otherwise. -/
def pyContains (container : Json) (needle : String) : Except String Bool :=
  match container with
  | .obj kvs => .ok ((kvs.lookup needle).isSome)
  | .arr xs => .ok (xs.contains (.str needle))
  | .str s => .ok (pyInStr needle s)
  | _ => .error "TypeError: argument is not iterable"

/-- Python `container[key]` with a string key. -/
def pyGetItem (container : Json) (key : String) : Except String Json :=
  match container with
  | .obj kvs =>
    match kvs.lookup key with
    | some v => .ok v
    | none => .error "KeyError"
  | _ => .error "TypeError: indices must be integers"

/-- Python `d.get(key, default)` (AttributeError when d is not a dict). -/
def pyDictGet (d : Json) (key : String) (dflt : Json) : Except String Json :=
  match d with
  | .obj kvs => .ok ((kvs.lookup key).getD dflt)
  | _ => .error "AttributeError: object has no attribute get"

/-- Python `container[0]`. -/
def pyIndex0 (container : Json) : Except String Json :=
  match container with
  | .arr (x :: _) => .ok x
  | .arr [] => .error "IndexError"
  | .str s =>
    match s.toList with
    | c :: _ => .ok (.str ⟨[c]⟩)
    | [] => .error "IndexError"
  | .obj _ => .error "KeyError: 0"
  | _ => .error "TypeError: object is not subscriptable"

/-- Model of re.match(r"^(\d+)(?:\.\d+)?s$", s): on success the value of the
integer group, i.e. the fractional part is discarded (floor for the
non-negative inputs the pattern admits). -/
def matchSecondsPat (s : String) : Option Nat :=
  if (s.toList.takeWhile Char.isDigit).isEmpty then none
  else
    match s.toList.dropWhile Char.isDigit with
    | ['s'] => some (digitsVal (s.toList.takeWhile Char.isDigit))
    | '.' :: r2 =>
      if !(r2.takeWhile Char.isDigit).isEmpty && r2.dropWhile Char.isDigit = ['s'] then
        some (digitsVal (s.toList.takeWhile Char.isDigit))
      else none
    | _ => none

/-- One optional component (digits followed by a marker letter) of the
PT-duration pattern; on failure the input is left untouched, matching the
regex backtracking of an optional group. -/
def ptComponent (mark : Char) (cs : List Char) : Option Nat × List Char :=
  match cs.dropWhile Char.isDigit with
  | c :: r2 =>
    if !(cs.takeWhile Char.isDigit).isEmpty && c = mark then
      (some (digitsVal (cs.takeWhile Char.isDigit)), r2)
    else (none, cs)
  | [] => (none, cs)

/-- Model of re.match(r"^PT(?:(\d+)H)?(?:(\d+)M)?(?:(\d+)S)?$", s) together
with the hours*3600 + mins*60 + secs computation of the source. -/
def matchPTPat (s : String) : Option Nat :=
  match s.toList with
  | p :: t :: r =>
    if p = 'P' && t = 'T' then
      match ptComponent 'H' r with
      | (h, r1) =>
        match ptComponent 'M' r1 with
        | (m, r2) =>
          match ptComponent 'S' r2 with
          | (sec, r3) =>
            if r3.isEmpty then some ((h.getD 0) * 3600 + (m.getD 0) * 60 + (sec.getD 0))
            else none
    else none
  | _ => none

/-- The two delay patterns of parse_retry_delay_seconds, in source order. -/
def tryPatterns (s : String) : Option Nat :=
  match matchSecondsPat s with
  | some n => some n
  | none => matchPTPat s

/-- The `for d in details` loop of parse_retry_delay_seconds.  `ok (some n)`
models a return statement, `ok none` models falling off the loop, `error`
models a raised exception (swallowed by the caller). -/
def retryLoop : List Json → Except String (Option Nat)
  | [] => .ok none
  | d :: ds =>
    match d with
    | .obj dk => do
      let ty := (dk.lookup "@type").getD (.str "")
      let b ← pyContains ty "RetryInfo"
      if b then
        let rd := (dk.lookup "retryDelay").getD .null
        if rd.truthy then
          match tryPatterns (pyStrip (pyToStr rd)) with
          | some n => .ok (some n)
          | none => retryLoop ds
        else retryLoop ds
      else retryLoop ds
    | _ => .error "AttributeError: object has no attribute get"

/-- The try-block of parse_retry_delay_seconds.  Iterating a non-empty string
or dict yields elements without a .get method, so the first loop step raises;
iterating an empty one runs the loop zero times. -/
def parseCore (j : Json) : Except String (Option Nat) := do
  let errv ← pyDictGet j "error" (.obj [])
  let details ← pyDictGet errv "details" (.arr [])
  match details with
  | .arr ds => retryLoop ds
  | .str s => if s = "" then .ok none else .error "AttributeError: str has no attribute get"
  | .obj kvs => if kvs.isEmpty then .ok none else .error "AttributeError: str has no attribute get"
  | _ => .error "TypeError: object is not iterable"

/-- parse_retry_delay_seconds (src/bot.py lines 74-93): any exception and any
fall-through yields the fixed default of 10. -/
def parse_retry_delay_seconds (j : Json) : Nat :=
  match parseCore j with
  | .ok (some n) => n
  | _ => 10

/-- A payload of the shape the parser looks for: error.details[0] is a
RetryInfo detail whose retryDelay is the given string. -/
def mkRetryPayload (s : String) : Json :=
  .obj [("error", .obj [("details", .arr
    [.obj [("@type", .str "type.googleapis.com/google.rpc.RetryInfo"),
           ("retryDelay", .str s)]])])]

/-! ## Providers -/

/-- A provider record after loading.  Fields that only feed request
construction (api_key, max_tokens, name) carry no behaviour relevant to any
claim and are dropped.  `disabledUntil` models the runtime-attached
`_disabled_until` key; the source reads it with `prov.get("_disabled_until", 0)`
and treats 0 (its default) as absent, so absence is modelled by 0. -/
structure Provider where
  id : String
  ptype : Option String
  base_url : Option String
  model : Option String
  priority : Int
  enabled : Bool
  disabledUntil : Nat
deriving DecidableEq

/-- A raw provider record as read from providers.json, before the
setdefault calls of load_providers. -/
structure RawProvider where
  id : Option String
  name : Option String
  ptype : Option String
  base_url : Option String
  model : Option String
  priority : Option Int
  enabled : Option Bool
deriving DecidableEq

/-- The id defaulting of load_providers: a present "id" key is kept as is
(setdefault never replaces it), otherwise a truthy "name" is used, otherwise
a generated identifier (the uuid, supplied here as `fresh`). -/
def defaultedId (fresh : String) (p : RawProvider) : String :=
  match p.id with
  | some s => s
  | none =>
    match p.name with
    | some n => if n = "" then fresh else n
    | none => fresh

/-- The three setdefault calls of load_providers applied to one record. -/
def applyDefaults (fresh : Nat → String) (raw : List RawProvider) : List Provider :=
  raw.enum.map (fun ip =>
    { id := defaultedId (fresh ip.1) ip.2
      ptype := ip.2.ptype
      base_url := ip.2.base_url
      model := ip.2.model
      priority := ip.2.priority.getD 100
      enabled := ip.2.enabled.getD true
      disabledUntil := 0 })

/-- load_providers (src/bot.py lines 34-46): apply defaults, keep the enabled
records, sort ascending by priority.  Python list.sort is stable; the stable
`List.insertionSort` models it. -/
def load_providers (fresh : Nat → String) (raw : List RawProvider) : List Provider :=
  List.insertionSort (fun a b => a.priority ≤ b.priority)
    ((applyDefaults fresh raw).filter (·.enabled))

/-- The matching-provider test of send_prompt (line 266): declared type equal
to the preferred token, or the token a substring of the lower-cased id. -/
def matchesPreferred (preferred : String) (p : Provider) : Bool :=
  p.ptype == some preferred || pyInStr preferred (pyLower p.id)

/-- The provider ordering computed at the top of send_prompt (lines 262-268):
filter to enabled providers, then, when a preferred type is set (non-empty
string: Python truthiness), matching providers first, the rest after,
both keeping their relative order. -/
def dispatchOrder (providers : List Provider) (preferred : String) : List Provider :=
  let provs := providers.filter (·.enabled)
  if preferred ≠ "" then
    let matching := provs.filter (matchesPreferred preferred)
    let others := provs.filter (fun p => !(matching.contains p))
    matching ++ others
  else provs

/-! ## Dispatcher -/

def MAX_PROVIDER_RETRIES : Nat := 2

/-- A raised exception, as the dispatcher sees it: the source attaches a
`retry_seconds` attribute to the HTTP 429 exception and nothing else. -/
inductive Failure where
  | rateLimited (secs : Nat) (msg : String) : Failure
  | generic (msg : String) : Failure
deriving DecidableEq

/-- getattr(e, "retry_seconds", None). -/
def retrySecondsAttr : Failure → Option Nat
  | .rateLimited s _ => some s
  | .generic _ => none

/-- Outcome of one call_provider invocation: a returned ok-dict (its "text"
value) or a raised exception. -/
inductive CallOutcome where
  | ok (text : Json) : CallOutcome
  | exn (f : Failure) : CallOutcome

/-- A stored conversation message: the dicts appended to
current_session["messages"].  The provider key is present only on
assistant messages. -/
structure Message where
  role : String
  text : Json
  provider : Option String
  ts : Nat

/-- The exceptions send_prompt itself can raise. -/
inductive SendErr where
  | noProvidersConfigured : SendErr
  | noEnabledProviders : SendErr
  | allProvidersFailed (last : Option Failure) : SendErr

/-- Overall result of send_prompt: the returned dict or a raised exception. -/
inductive SendResult where
  | success (pid : String) (text : Json) : SendResult
  | failure (e : SendErr) : SendResult

/-- Everything observable about one send_prompt run: the provider records
after the run (cooldown updates included), the conversation history, the
list of (provider id, attempt number) pairs for every call_provider
invocation, in order, and the result. -/
structure DispatchOut where
  provs : List Provider
  history : List Message
  trace : List (String × Nat)
  result : SendResult

/-- Outcome of the per-provider attempt loop. -/
inductive ProvOutcome where
  | success (text : Json) : ProvOutcome
  | cooled (secs : Nat) (exc : Failure) : ProvOutcome
  | exhausted (last : Option Failure) : ProvOutcome

/-- The `for attempt in range(1, MAX_PROVIDER_RETRIES+1)` loop of send_prompt
(lines 276-301) for one provider.  `callOne` yields the outcome of the
attempt with the given 1-based index; `fuel` is the number of attempts left
and `last` threads the last_exc variable.  A truthy retry_seconds attribute
(non-zero: Python `if retry_secs:`) breaks out with a cooldown request; any
other exception consumes the attempt and continues.  The returned list
records the attempt indices actually made. -/
def attemptLoop (callOne : Nat → CallOutcome) :
    Nat → Nat → Option Failure → ProvOutcome × List Nat
  | _, 0, last => (.exhausted last, [])
  | attempt, fuel+1, _last =>
    match callOne attempt with
    | .ok t => (.success t, [attempt])
    | .exn f =>
      match retrySecondsAttr f with
      | some s =>
        if s ≠ 0 then (.cooled s f, [attempt])
        else
          let r := attemptLoop callOne (attempt+1) fuel (some f)
          (r.1, attempt :: r.2)
      | none =>
        let r := attemptLoop callOne (attempt+1) fuel (some f)
        (r.1, attempt :: r.2)

/-- The cooldown check of send_prompt (lines 270-274): skip when
_disabled_until is set (non-zero, Python truthiness of the 0 default) and the
current time is strictly before it. -/
def cooldownActive (p : Provider) (now : Nat) : Bool :=
  p.disabledUntil != 0 && decide (now < p.disabledUntil)

/-- The `for prov in provs` loop of send_prompt (lines 269-301): skip
providers with an active cooldown; run the attempt loop on the rest; on
success append the user and assistant messages and return; on a truthy
rate-limit signal overwrite the provider cooldown and move on; on exhaustion
move on; when the list is exhausted raise the aggregate failure. -/
def provLoop (callFn : Provider → Nat → CallOutcome) (now : Nat) (prompt : String) :
    List Provider → Option Failure → List Message → DispatchOut
  | [], last, hist => ⟨[], hist, [], .failure (.allProvidersFailed last)⟩
  | p :: rest, last, hist =>
    if cooldownActive p now then
      let o := provLoop callFn now prompt rest last hist
      ⟨p :: o.provs, o.history, o.trace, o.result⟩
    else
      match attemptLoop (callFn p) 1 MAX_PROVIDER_RETRIES last with
      | (.success t, tr) =>
        let rawText := if t.truthy then t else .str ""
        ⟨p :: rest,
         hist ++ [⟨"user", .str prompt, none, now⟩, ⟨"assistant", rawText, some p.id, now⟩],
         tr.map (fun a => (p.id, a)), .success p.id rawText⟩
      | (.cooled s exc, tr) =>
        let o := provLoop callFn now prompt rest (some exc) hist
        ⟨{ p with disabledUntil := now + s } :: o.provs, o.history,
         tr.map (fun a => (p.id, a)) ++ o.trace, o.result⟩
      | (.exhausted last2, tr) =>
        let o := provLoop callFn now prompt rest last2 hist
        ⟨p :: o.provs, o.history, tr.map (fun a => (p.id, a)) ++ o.trace, o.result⟩

/-- send_prompt (src/bot.py lines 243-302).  The context-message assembly
(lines 247-258) only feeds request bodies and is abstracted into `callFn`;
`hist` is current_session["messages"]. -/
def send_prompt (callFn : Provider → Nat → CallOutcome) (now : Nat)
    (providers : List Provider) (preferred : String) (hist : List Message)
    (prompt : String) : DispatchOut :=
  if providers.isEmpty then ⟨providers, hist, [], .failure .noProvidersConfigured⟩
  else if (providers.filter (·.enabled)).isEmpty then
    ⟨providers, hist, [], .failure .noEnabledProviders⟩
  else provLoop callFn now prompt (dispatchOrder providers preferred) none hist

/-! ## Response extractor (minimalize_response) -/

/-- Find the first closing triple-backtick in the list; on success return the
characters before it and the characters after it.  Models the lazy `(.*?)`
of the fence regex followed by the closing fence. -/
def splitAtClose : List Char → Option (List Char × List Char)
  | [] => none
  | c :: rest =>
    if c = btChar && listPrefixEq [btChar, btChar] rest then some ([], rest.drop 2)
    else
      match splitAtClose rest with
      | some pr => some (c :: pr.1, pr.2)
      | none => none

/-- Attempt to match the fence regex at the head of the list: three
backticks, an optional greedy word run (the language tag), a newline, then a
lazy body up to the next three backticks.  On success return the body and
the remainder after the closing fence. -/
def tryMatchAt (cs : List Char) : Option (String × List Char) :=
  match cs with
  | a :: b :: c :: r =>
    if a = btChar && b = btChar && c = btChar then
      match r.dropWhile isWordChar with
      | d :: r3 =>
        if d = '\n' then (splitAtClose r3).map (fun pr => ((⟨pr.1⟩ : String), pr.2)) else none
      | [] => none
    else none
  | _ => none

/-- re.findall of the fence regex: try a match at every position, left to
right, resuming after each match.  The fuel is an upper bound on the number
of steps; each step consumes at least one character, so the initial length
suffices, and a fuelled definition keeps the recursion structural. -/
def findFencesAux : Nat → List Char → List String
  | 0, _ => []
  | _, [] => []
  | fuel+1, c :: rest =>
    match tryMatchAt (c :: rest) with
    | some pr => pr.1 :: findFencesAux fuel pr.2
    | none => findFencesAux fuel rest

/-- _CODE_FENCE_RE.findall(text) (src/bot.py line 95/100). -/
def findFences (cs : List Char) : List String := findFencesAux cs.length cs

/-- The statement keywords of INLINE_CODE_RE. -/
def kwList : List String := ["def", "class", "for", "while", "if", "return", "print"]

/-- The character class [\w\.\-\_] of the assignment alternative. -/
def isAsgnChar (c : Char) : Bool := isWordChar c || c = '.' || c = '-'

/-- INLINE_CODE_RE.match(t) (src/bot.py line 96), as a Boolean: a comment
line, a simple assignment prefix, or a statement keyword followed by a word
boundary.  Each alternative starts with `^\s*`. -/
def isCodeLike (t : String) : Bool :=
  let cs := t.toList.dropWhile Char.isWhitespace
  (match cs with
   | '#' :: _ => true
   | '/' :: '/' :: _ => true
   | _ => false)
  ||
  (let run := cs.takeWhile isAsgnChar
   let rest := (cs.dropWhile isAsgnChar).dropWhile Char.isWhitespace
   !run.isEmpty && rest.head? = some '=')
  ||
  kwList.any (fun kw =>
    cs.take kw.length = kw.toList &&
    (match cs.drop kw.length with
     | [] => true
     | c :: _ => !isWordChar c))

/-- The line-grouping loop of minimalize_response (lines 108-118): runs of
code-like lines (tested on the stripped line) are flushed into the output
separated by one blank line; a trailing run is flushed without the blank. -/
def groupCodeLines : List String → List String → List String
  | [], curr => curr
  | ln :: rest, curr =>
    if isCodeLike (pyStrip ln) then groupCodeLines rest (curr ++ [ln])
    else if curr.isEmpty then groupCodeLines rest []
    else curr ++ [""] ++ groupCodeLines rest []

/-- sum(1 for l in code_lines if l.strip()). -/
def countNonBlank (ls : List String) : Nat := (ls.filter (fun l => pyStrip l != "")).length

/-- Specification-side description of blocks[0] after the stable descending
length sort: the first block of maximal character count. -/
def firstLongest : List String → Option String
  | [] => none
  | b :: bs =>
    match firstLongest bs with
    | none => some b
    | some c => some (if b.length < c.length then c else b)

/-- minimalize_response (src/bot.py lines 97-123).  Branch order as in the
source: fenced blocks first (stable reverse sort by length, Python
list.sort(reverse=True) keeps equal elements in original order), then the
line heuristic, then the single-line minimal form. -/
def minimalize_response (text : String) : String :=
  if text = "" then ""
  else
    if (findFences text.toList).isEmpty then
      if 2 ≤ countNonBlank (groupCodeLines (pySplitlines text) []) then
        "// code (heuristic)\n" ++
          (pyStrip (joinWith "\n" (groupCodeLines (pySplitlines text) [])) ++ "\n")
      else
        "// response (minimal)\n" ++
          takeChars 1200 (joinWith " " (pySplitlines (pyStrip text)))
    else
      if (pyRstrip ((List.insertionSort (fun a b => b.length ≤ a.length)
            (findFences text.toList)).headD "")).toList.getLast? = some '\n' then
        "// code (extracted)\n" ++
          pyRstrip ((List.insertionSort (fun a b => b.length ≤ a.length)
            (findFences text.toList)).headD "")
      else
        "// code (extracted)\n" ++
          pyRstrip ((List.insertionSort (fun a b => b.length ≤ a.length)
            (findFences text.toList)).headD "") ++ "\n"

/-! ## Provider adapters (call_provider) -/

/-- The or-chain `cand.get("content") or cand.get("output") or cand.get("text") or ""`
of the Gemini response parser; raises when cand is not a dict. -/
def pyOrChain (cand : Json) : Except String Json := do
  let a ← pyDictGet cand "content" .null
  if a.truthy then return a
  let b ← pyDictGet cand "output" .null
  if b.truthy then return b
  let c ← pyDictGet cand "text" .null
  if c.truthy then return c
  return .str ""

/-- Contribution of one element of a structured `output` list: dicts give
their content-or-text-or-empty value, strings give themselves, everything
else is skipped (no append). -/
def partPiece (o : Json) : Option Json :=
  match o with
  | .obj kvs =>
    let a := (kvs.lookup "content").getD .null
    some (if a.truthy then a
      else
        let b := (kvs.lookup "text").getD .null
        if b.truthy then b else .str "")
  | .str s => some (.str s)
  | _ => none

/-- The parts accumulation for a structured `output` list. -/
def collectParts (os : List Json) : List Json := os.filterMap partPiece

/-- `"\n".join(p for p in parts if p)`: keep truthy pieces; str.join raises
TypeError on any non-string element. -/
def joinTruthyParts (ps : List Json) : Except String String := do
  let strs ← (ps.filter (·.truthy)).mapM (fun p =>
    match p with
    | Json.str s => Except.ok s
    | _ => Except.error "TypeError: sequence item is not a str")
  return joinWith "\n" strs

/-- The Gemini-style 200-response parser of call_provider (lines 171-207):
candidates (nested parts structure or flat fields), else a string or
structured `output`, else a `result` field, else the stringified body;
non-dict bodies are stringified directly. -/
def geminiParse (data : Json) : Except String Json :=
  match data with
  | .obj kvs =>
    let hasCand := (kvs.lookup "candidates").isSome
    let candv := (kvs.lookup "candidates").getD .null
    if hasCand && candv.truthy then do
      let cand ← pyIndex0 candv
      let b1 ← pyContains cand "content"
      if b1 then do
        let cv ← pyGetItem cand "content"
        match cv with
        | .obj cvk =>
          if (cvk.lookup "parts").isSome then
            match (cvk.lookup "parts").getD .null with
            | .arr (p0 :: _) => pyDictGet p0 "text" (.str "")
            | _ => .ok (.str "")
          else pyOrChain cand
        | _ => pyOrChain cand
      else pyOrChain cand
    else if (kvs.lookup "output").isSome then
      match (kvs.lookup "output").getD .null with
      | .str s => .ok (.str s)
      | .arr os => (joinTruthyParts (collectParts os)).map (fun s => .str s)
      | out => .ok (.str out.dumps)
    else if !hasCand && (kvs.lookup "result").isSome then
      .ok (.str (((kvs.lookup "result").getD .null).dumps))
    else .ok (.str (Json.obj kvs).dumps)
  | _ => .ok (.str (pyToStr data))

/-- `content = ch.get("text") or json.dumps(ch)` of the OpenAI-style parser. -/
def textFallback (ch : Json) : Except String Json := do
  let tv ← pyDictGet ch "text" .null
  if tv.truthy then return tv
  return .str ch.dumps

/-- The OpenAI/OpenRouter-style 200-response parser of call_provider (lines
231-239): when `choices` is present and truthy, read choices[0]; prefer the
message/content field when message is a dict; otherwise the text field or
the stringified choice.  Otherwise the stringified whole body. -/
def openaiParse (data : Json) : Except String Json := do
  let b ← pyContains data "choices"
  if b then do
    let chs ← pyGetItem data "choices"
    if chs.truthy then do
      let ch ← pyIndex0 chs
      let hasMsg ← pyContains ch "message"
      if hasMsg then do
        let m ← pyGetItem ch "message"
        match m with
        | .obj mk => return (mk.lookup "content").getD .null
        | _ => textFallback ch
      else textFallback ch
    else return .str data.dumps
  else return .str data.dumps

/-- One HTTP response: status, the decoded JSON body (none when resp.json()
raises), and the raw body text. -/
structure HttpResp where
  status : Nat
  body : Option Json
  text : String

/-- Result of the network round trip: a response or a raised network
exception (connection error, timeout, ...). -/
inductive NetResult where
  | resp (r : HttpResp) : NetResult
  | exc (msg : String) : NetResult

/-- The branch test of call_provider (line 136): lower-cased declared type is
"gemini", or the base url mentions generativelanguage.googleapis.com. -/
def isGeminiBranch (p : Provider) : Bool :=
  pyLower (p.ptype.getD "") = "gemini" ||
    pyInStr "generativelanguage.googleapis.com" (p.base_url.getD "")

/-- The message of the exception raised for a Gemini provider without a
model (line 142).  Exception texts are diagnostic only in this model. -/
def geminiMissingModelMsg : String := "Gemini provider missing model field"

/-- The HTTP 429 exception (lines 160-167 and 221-228): decode the body
(empty dict when decoding fails), attach retry_seconds from the delay
parser, and carry the dumped body (or the raw text when the decoded body is
falsy) in the message. -/
def http429Exc (r : HttpResp) : Failure :=
  let data := r.body.getD (.obj [])
  .rateLimited (parse_retry_delay_seconds data)
    ("HTTP 429: " ++ (if data.truthy then data.dumps else r.text))

/-- The HTTP status policy shared verbatim by both adapter branches: 429 is
a rate-limit exception, any other non-200 a generic exception, a 200 body
that fails to decode a generic exception, otherwise the branch parser runs
(its exceptions propagate as generic failures). -/
def httpOutcome (parse : Json → Except String Json) (net : NetResult) : CallOutcome :=
  match net with
  | .exc m => .exn (.generic m)
  | .resp r =>
    if r.status = 429 then .exn (http429Exc r)
    else if r.status ≠ 200 then .exn (.generic ("HTTP " ++ toString r.status ++ ": " ++ r.text))
    else
      match r.body with
      | none => .exn (.generic "JSONDecodeError")
      | some data =>
        match parse data with
        | .ok c => .ok c
        | .error e => .exn (.generic e)

/-- call_provider (src/bot.py lines 125-241).  Request construction (urls,
headers, bodies) influences no claim and is abstracted into the `net`
oracle.  In the Gemini branch the source first dereferences
prov.get("base_url").rstrip("/"), which raises on a missing base url, and
then raises on a missing or empty model, both before the network call. -/
def call_provider (net : NetResult) (p : Provider) : CallOutcome :=
  if isGeminiBranch p then
    match p.base_url with
    | none => .exn (.generic "AttributeError: NoneType has no attribute rstrip")
    | some _ =>
      match p.model with
      | none => .exn (.generic geminiMissingModelMsg)
      | some m =>
        if m = "" then .exn (.generic geminiMissingModelMsg)
        else httpOutcome geminiParse net
  else httpOutcome openaiParse net

/-! ## Shared lemmas about the dispatcher -/

theorem attemptLoop_ok (callOne : Nat → CallOutcome) (a f : Nat) (last : Option Failure)
    (t : Json) (h : callOne a = .ok t) :
    attemptLoop callOne a (f+1) last = (.success t, [a]) := by
  simp [attemptLoop, h]

theorem attemptLoop_rl (callOne : Nat → CallOutcome) (a f : Nat) (last : Option Failure)
    (s : Nat) (m : String) (h : callOne a = .exn (.rateLimited s m)) (hs : s ≠ 0) :
    attemptLoop callOne a (f+1) last = (.cooled s (.rateLimited s m), [a]) := by
  simp [attemptLoop, h, retrySecondsAttr, hs]

theorem attemptLoop_step (callOne : Nat → CallOutcome) (a f : Nat) (last : Option Failure)
    (fl : Failure) (h : callOne a = .exn fl)
    (ht : ∀ s, retrySecondsAttr fl = some s → s = 0) :
    attemptLoop callOne a (f+1) last =
      ((attemptLoop callOne (a+1) f (some fl)).1,
        a :: (attemptLoop callOne (a+1) f (some fl)).2) := by
  cases hr : retrySecondsAttr fl with
  | none => simp [attemptLoop, h, hr]
  | some s => have := ht s hr; subst this; simp [attemptLoop, h, hr]

theorem attemptLoop_two (callOne : Nat → CallOutcome) (last : Option Failure)
    (f1 f2 : Failure)
    (h1 : callOne 1 = .exn f1) (ht1 : ∀ s, retrySecondsAttr f1 = some s → s = 0)
    (h2 : callOne 2 = .exn f2) (ht2 : ∀ s, retrySecondsAttr f2 = some s → s = 0) :
    attemptLoop callOne 1 MAX_PROVIDER_RETRIES last = (.exhausted (some f2), [1, 2]) := by
  have e1 : MAX_PROVIDER_RETRIES = 1 + 1 := rfl
  rw [e1, attemptLoop_step callOne 1 1 last f1 h1 ht1]
  cases hr2 : retrySecondsAttr f2 with
  | none => simp [attemptLoop, h2, hr2]
  | some s => have := ht2 s hr2; subst this; simp [attemptLoop, h2, hr2]

theorem attemptLoop_two_rl (callOne : Nat → CallOutcome) (last : Option Failure)
    (f1 : Failure) (s : Nat) (m : String)
    (h1 : callOne 1 = .exn f1) (ht1 : ∀ s0, retrySecondsAttr f1 = some s0 → s0 = 0)
    (h2 : callOne 2 = .exn (.rateLimited s m)) (hs : s ≠ 0) :
    attemptLoop callOne 1 MAX_PROVIDER_RETRIES last =
      (.cooled s (.rateLimited s m), [1, 2]) := by
  have e1 : MAX_PROVIDER_RETRIES = 1 + 1 := rfl
  rw [e1, attemptLoop_step callOne 1 1 last f1 h1 ht1]
  simp [attemptLoop, h2, retrySecondsAttr, hs]

theorem attemptLoop_head (callOne : Nat → CallOutcome) (a f : Nat) (last : Option Failure) :
    (attemptLoop callOne a (f+1) last).2.head? = some a := by
  cases h : callOne a with
  | ok t => simp [attemptLoop, h]
  | exn fl =>
    cases hr : retrySecondsAttr fl with
    | none => simp [attemptLoop, h, hr]
    | some s => by_cases hs : s = 0 <;> simp [attemptLoop, h, hr, hs]

theorem provLoop_nil (callFn : Provider → Nat → CallOutcome) (now : Nat) (prompt : String)
    (last : Option Failure) (hist : List Message) :
    provLoop callFn now prompt [] last hist =
      ⟨[], hist, [], .failure (.allProvidersFailed last)⟩ := rfl

theorem provLoop_skip (callFn : Provider → Nat → CallOutcome) (now : Nat) (prompt : String)
    (p : Provider) (rest : List Provider) (last : Option Failure) (hist : List Message)
    (hc : cooldownActive p now = true) :
    provLoop callFn now prompt (p :: rest) last hist =
      ⟨p :: (provLoop callFn now prompt rest last hist).provs,
       (provLoop callFn now prompt rest last hist).history,
       (provLoop callFn now prompt rest last hist).trace,
       (provLoop callFn now prompt rest last hist).result⟩ := by
  simp [provLoop, hc]

theorem provLoop_cooled (callFn : Provider → Nat → CallOutcome) (now : Nat) (prompt : String)
    (p : Provider) (rest : List Provider) (last : Option Failure) (hist : List Message)
    (s : Nat) (exc : Failure) (tr : List Nat)
    (hc : cooldownActive p now = false)
    (hA : attemptLoop (callFn p) 1 MAX_PROVIDER_RETRIES last = (.cooled s exc, tr)) :
    provLoop callFn now prompt (p :: rest) last hist =
      ⟨{ p with disabledUntil := now + s } ::
         (provLoop callFn now prompt rest (some exc) hist).provs,
       (provLoop callFn now prompt rest (some exc) hist).history,
       tr.map (fun a => (p.id, a)) ++ (provLoop callFn now prompt rest (some exc) hist).trace,
       (provLoop callFn now prompt rest (some exc) hist).result⟩ := by
  simp [provLoop, hc, hA]

theorem provLoop_exhausted (callFn : Provider → Nat → CallOutcome) (now : Nat) (prompt : String)
    (p : Provider) (rest : List Provider) (last last2 : Option Failure) (hist : List Message)
    (tr : List Nat)
    (hc : cooldownActive p now = false)
    (hA : attemptLoop (callFn p) 1 MAX_PROVIDER_RETRIES last = (.exhausted last2, tr)) :
    provLoop callFn now prompt (p :: rest) last hist =
      ⟨p :: (provLoop callFn now prompt rest last2 hist).provs,
       (provLoop callFn now prompt rest last2 hist).history,
       tr.map (fun a => (p.id, a)) ++ (provLoop callFn now prompt rest last2 hist).trace,
       (provLoop callFn now prompt rest last2 hist).result⟩ := by
  simp [provLoop, hc, hA]

theorem provLoop_success (callFn : Provider → Nat → CallOutcome) (now : Nat) (prompt : String)
    (p : Provider) (rest : List Provider) (last : Option Failure) (hist : List Message)
    (t : Json) (tr : List Nat)
    (hc : cooldownActive p now = false)
    (hA : attemptLoop (callFn p) 1 MAX_PROVIDER_RETRIES last = (.success t, tr)) :
    provLoop callFn now prompt (p :: rest) last hist =
      ⟨p :: rest,
       hist ++ [⟨"user", .str prompt, none, now⟩,
                ⟨"assistant", if t.truthy then t else .str "", some p.id, now⟩],
       tr.map (fun a => (p.id, a)), .success p.id (if t.truthy then t else .str "")⟩ := by
  simp [provLoop, hc, hA]

theorem provLoop_hist_frame (callFn : Provider → Nat → CallOutcome) (now : Nat) (prompt : String) :
    ∀ (l : List Provider) (last : Option Failure) (hist : List Message),
      (∀ pid t, (provLoop callFn now prompt l last hist).result = .success pid t →
        (provLoop callFn now prompt l last hist).history =
          hist ++ [⟨"user", .str prompt, none, now⟩, ⟨"assistant", t, some pid, now⟩]) ∧
      (∀ e, (provLoop callFn now prompt l last hist).result = .failure e →
        (provLoop callFn now prompt l last hist).history = hist)
  | [], last, hist => by
    refine ⟨fun pid t h => ?_, fun e h => ?_⟩
    · simp [provLoop_nil] at h
    · simp [provLoop_nil]
  | p :: rest, last, hist => by
    by_cases hc : cooldownActive p now = true
    · have ih := provLoop_hist_frame callFn now prompt rest last hist
      rw [provLoop_skip callFn now prompt p rest last hist hc]
      exact ih
    · rw [Bool.not_eq_true] at hc
      rcases hA : attemptLoop (callFn p) 1 MAX_PROVIDER_RETRIES last with ⟨po, tr⟩
      cases po with
      | success t =>
        rw [provLoop_success callFn now prompt p rest last hist t tr hc hA]
        refine ⟨fun pid t2 h => ?_, fun e h => ?_⟩
        · cases h; rfl
        · cases h
      | cooled s exc =>
        have ih := provLoop_hist_frame callFn now prompt rest (some exc) hist
        rw [provLoop_cooled callFn now prompt p rest last hist s exc tr hc hA]
        exact ih
      | exhausted last2 =>
        have ih := provLoop_hist_frame callFn now prompt rest last2 hist
        rw [provLoop_exhausted callFn now prompt p rest last last2 hist tr hc hA]
        exact ih

theorem provLoop_trace_sound (callFn : Provider → Nat → CallOutcome) (now : Nat)
    (prompt : String) :
    ∀ (l : List Provider) (last : Option Failure) (hist : List Message) (pid : String) (k : Nat),
      (pid, k) ∈ (provLoop callFn now prompt l last hist).trace →
      ∃ p, p ∈ l ∧ p.id = pid ∧ cooldownActive p now = false
  | [], last, hist, pid, k => by
    intro h
    simp [provLoop_nil] at h
  | p :: rest, last, hist, pid, k => by
    intro h
    by_cases hc : cooldownActive p now = true
    · rw [provLoop_skip callFn now prompt p rest last hist hc] at h
      obtain ⟨q, hq, hid, hcd⟩ := provLoop_trace_sound callFn now prompt rest last hist pid k h
      exact ⟨q, List.mem_cons_of_mem p hq, hid, hcd⟩
    · rw [Bool.not_eq_true] at hc
      rcases hA : attemptLoop (callFn p) 1 MAX_PROVIDER_RETRIES last with ⟨po, tr⟩
      cases po with
      | success t =>
        rw [provLoop_success callFn now prompt p rest last hist t tr hc hA] at h
        simp only [List.mem_map] at h
        obtain ⟨a, _, ha⟩ := h
        exact ⟨p, List.mem_cons_self p rest, (Prod.mk.injEq _ _ _ _).mp ha |>.1.symm ▸ rfl, hc⟩
      | cooled s exc =>
        rw [provLoop_cooled callFn now prompt p rest last hist s exc tr hc hA] at h
        rcases List.mem_append.mp h with hm | hm
        · simp only [List.mem_map] at hm
          obtain ⟨a, _, ha⟩ := hm
          exact ⟨p, List.mem_cons_self p rest, (Prod.mk.injEq _ _ _ _).mp ha |>.1.symm ▸ rfl, hc⟩
        · obtain ⟨q, hq, hid, hcd⟩ :=
            provLoop_trace_sound callFn now prompt rest (some exc) hist pid k hm
          exact ⟨q, List.mem_cons_of_mem p hq, hid, hcd⟩
      | exhausted last2 =>
        rw [provLoop_exhausted callFn now prompt p rest last last2 hist tr hc hA] at h
        rcases List.mem_append.mp h with hm | hm
        · simp only [List.mem_map] at hm
          obtain ⟨a, _, ha⟩ := hm
          exact ⟨p, List.mem_cons_self p rest, (Prod.mk.injEq _ _ _ _).mp ha |>.1.symm ▸ rfl, hc⟩
        · obtain ⟨q, hq, hid, hcd⟩ :=
            provLoop_trace_sound callFn now prompt rest last2 hist pid k hm
          exact ⟨q, List.mem_cons_of_mem p hq, hid, hcd⟩

theorem mem_dispatchOrder {providers : List Provider} {preferred : String} {x : Provider}
    (h : x ∈ dispatchOrder providers preferred) : x ∈ providers ∧ x.enabled = true := by
  unfold dispatchOrder at h
  by_cases hp : preferred = ""
  · simp only [hp, ne_eq, not_true_eq_false, if_false] at h
    exact ⟨(List.mem_filter.mp h).1, (List.mem_filter.mp h).2⟩
  · simp only [ne_eq, hp, not_false_eq_true, if_true] at h
    rcases List.mem_append.mp h with hm | hm
    · have h2 := List.mem_filter.mp hm
      have h3 := List.mem_filter.mp h2.1
      exact ⟨h3.1, h3.2⟩
    · have h2 := List.mem_filter.mp hm
      have h3 := List.mem_filter.mp h2.1
      exact ⟨h3.1, h3.2⟩

theorem cooldownActive_false_iff (p : Provider) (now : Nat) :
    cooldownActive p now = false ↔ ¬ (p.disabledUntil ≠ 0 ∧ now < p.disabledUntil) := by
  simp [cooldownActive]

theorem head_map_append {α β : Type} (f : α → β) (tr : List α) (o : List β) (a : α)
    (h : tr.head? = some a) : (tr.map f ++ o).head? = some (f a) := by
  cases tr with
  | nil => cases h
  | cons x xs => cases h; rfl

theorem head_map {α β : Type} (f : α → β) (tr : List α) (a : α)
    (h : tr.head? = some a) : (tr.map f).head? = some (f a) := by
  cases tr with
  | nil => cases h
  | cons x xs => cases h; rfl

/-! ## Claims about the dispatcher -/

/-- C1: for every submission, the dispatcher never attempts a call on a
provider whose cooldown is active (disabled-until set, that is non-zero, and
the current time strictly before it): every traced call belongs to an enabled
provider on which that condition fails.  And once the timestamp has elapsed
(disabled-until still set but not in the future) the provider is attempted
again on the next selection pass, with no reset of the stored timestamp. -/
theorem C1_cooldown_respected :
    (∀ (callFn : Provider → Nat → CallOutcome) (now : Nat) (providers : List Provider)
       (preferred : String) (hist : List Message) (prompt : String) (pid : String) (k : Nat),
      (pid, k) ∈ (send_prompt callFn now providers preferred hist prompt).trace →
      ∃ p, p ∈ providers ∧ p.enabled = true ∧ p.id = pid ∧
        ¬ (p.disabledUntil ≠ 0 ∧ now < p.disabledUntil)) ∧
    (∀ (callFn : Provider → Nat → CallOutcome) (now : Nat) (prompt : String) (p : Provider)
       (rest : List Provider) (last : Option Failure) (hist : List Message),
      p.disabledUntil ≠ 0 → p.disabledUntil ≤ now →
      ((provLoop callFn now prompt (p :: rest) last hist).trace).head? = some (p.id, 1)) := by
  constructor
  · intro callFn now providers preferred hist prompt pid k h
    unfold send_prompt at h
    by_cases h1 : providers.isEmpty
    · simp [h1] at h
    · by_cases h2 : (providers.filter (·.enabled)).isEmpty
      · simp [h1, h2] at h
      · simp only [h1, h2, if_false] at h
        obtain ⟨p, hp, hid, hcd⟩ := provLoop_trace_sound callFn now prompt _ none hist pid k h
        obtain ⟨hmem, hen⟩ := mem_dispatchOrder hp
        exact ⟨p, hmem, hen, hid, (cooldownActive_false_iff p now).mp hcd⟩
  · intro callFn now prompt p rest last hist hne hle
    have hc : cooldownActive p now = false :=
      (cooldownActive_false_iff p now).mpr (fun hx => absurd hx.2 (by omega))
    rcases hA : attemptLoop (callFn p) 1 MAX_PROVIDER_RETRIES last with ⟨po, tr⟩
    have htr : tr.head? = some 1 := by
      have hh := attemptLoop_head (callFn p) 1 1 last
      rw [show MAX_PROVIDER_RETRIES = 1+1 from rfl] at hA
      rw [hA] at hh
      exact hh
    cases po with
    | success t =>
      rw [provLoop_success callFn now prompt p rest last hist t tr hc hA]
      exact head_map _ tr 1 htr
    | cooled s exc =>
      rw [provLoop_cooled callFn now prompt p rest last hist s exc tr hc hA]
      exact head_map_append _ tr _ 1 htr
    | exhausted last2 =>
      rw [provLoop_exhausted callFn now prompt p rest last last2 hist tr hc hA]
      exact head_map_append _ tr _ 1 htr

/-- Witness for C1: a provider whose cooldown timestamp 70 has elapsed at
time 100 is attempted (attempt 1 heads the trace) with no reset. -/
theorem C1_witness :
    ((provLoop (fun _ _ => CallOutcome.ok (.str "r")) 100 "q"
        [⟨"p1", some "openrouter", none, none, 1, true, 70⟩] none []).trace).head? =
      some ("p1", 1) :=
  C1_cooldown_respected.2 (fun _ _ => CallOutcome.ok (.str "r")) 100 "q"
    ⟨"p1", some "openrouter", none, none, 1, true, 70⟩ [] none [] (by decide) (by decide)

/-- C2 (amended): for every provider attempt that fails with a rate-limit
signal carrying a positive retry-after duration, the dispatcher sets that
provider disabled-until to now + seconds, overwriting any prior value,
abandons the remaining attempts on that provider (the trace for it stops at
the failing attempt) and advances to the next provider.  Stated for a
rate-limit on the first attempt and on the second (last) attempt of the
2-attempt budget.  A duration of exactly zero is excluded: the source tests
the attached retry_seconds for truthiness, so zero takes the transient path
(see the counterexample and C10). -/
theorem C2_rate_limit_disable :
    ∀ (callFn : Provider → Nat → CallOutcome) (now : Nat) (prompt : String) (p : Provider)
      (rest : List Provider) (last : Option Failure) (hist : List Message) (s : Nat) (m : String),
      cooldownActive p now = false → s ≠ 0 →
      ((callFn p 1 = .exn (.rateLimited s m) →
        provLoop callFn now prompt (p :: rest) last hist =
          ⟨{ p with disabledUntil := now + s } ::
             (provLoop callFn now prompt rest (some (.rateLimited s m)) hist).provs,
           (provLoop callFn now prompt rest (some (.rateLimited s m)) hist).history,
           (p.id, 1) :: (provLoop callFn now prompt rest (some (.rateLimited s m)) hist).trace,
           (provLoop callFn now prompt rest (some (.rateLimited s m)) hist).result⟩) ∧
       (∀ f1, callFn p 1 = .exn f1 → (∀ s0, retrySecondsAttr f1 = some s0 → s0 = 0) →
        callFn p 2 = .exn (.rateLimited s m) →
        provLoop callFn now prompt (p :: rest) last hist =
          ⟨{ p with disabledUntil := now + s } ::
             (provLoop callFn now prompt rest (some (.rateLimited s m)) hist).provs,
           (provLoop callFn now prompt rest (some (.rateLimited s m)) hist).history,
           (p.id, 1) :: (p.id, 2) ::
             (provLoop callFn now prompt rest (some (.rateLimited s m)) hist).trace,
           (provLoop callFn now prompt rest (some (.rateLimited s m)) hist).result⟩)) := by
  intro callFn now prompt p rest last hist s m hc hs
  constructor
  · intro h1
    have hA : attemptLoop (callFn p) 1 MAX_PROVIDER_RETRIES last =
        (.cooled s (.rateLimited s m), [1]) := by
      rw [show MAX_PROVIDER_RETRIES = 1+1 from rfl]
      exact attemptLoop_rl (callFn p) 1 1 last s m h1 hs
    rw [provLoop_cooled callFn now prompt p rest last hist s (.rateLimited s m) [1] hc hA]
    rfl
  · intro f1 h1 ht1 h2
    have hA : attemptLoop (callFn p) 1 MAX_PROVIDER_RETRIES last =
        (.cooled s (.rateLimited s m), [1, 2]) :=
      attemptLoop_two_rl (callFn p) last f1 s m h1 ht1 h2 hs
    rw [provLoop_cooled callFn now prompt p rest last hist s (.rateLimited s m) [1, 2] hc hA]
    rfl

/-- Witness for C2: a 30 second rate limit at time 100 on the only provider
disables it until 130 after exactly one attempt. -/
theorem C2_witness :
    provLoop (fun _ _ => CallOutcome.exn (.rateLimited 30 "HTTP 429: z")) 100 "q"
        [⟨"p1", some "openrouter", none, some "m", 1, true, 0⟩] none [] =
      ⟨[⟨"p1", some "openrouter", none, some "m", 1, true, 130⟩], [],
       [("p1", 1)], .failure (.allProvidersFailed (some (.rateLimited 30 "HTTP 429: z")))⟩ := by
  have h := (C2_rate_limit_disable (fun _ _ => CallOutcome.exn (.rateLimited 30 "HTTP 429: z"))
    100 "q" ⟨"p1", some "openrouter", none, some "m", 1, true, 0⟩ [] none [] 30 "HTTP 429: z"
    rfl (by decide)).1 rfl
  rw [h]
  rfl

/-- Counterexample for C2 as stated: a rate-limit signal carrying a
retry-after duration of exactly 0 seconds.  The claim demands that the
dispatcher set disabled-until to now + 0 = 100 and abandon the remaining
attempts; instead the provider record is unchanged (disabled-until stays 0)
and a second attempt is made. -/
theorem C2_counterexample :
    (send_prompt (fun _ _ => CallOutcome.exn (.rateLimited 0 "HTTP 429: resource exhausted")) 100
        [⟨"p1", some "openrouter", none, some "m", 1, true, 0⟩] "openrouter" [] "q").provs =
      [⟨"p1", some "openrouter", none, some "m", 1, true, 0⟩] ∧
    (send_prompt (fun _ _ => CallOutcome.exn (.rateLimited 0 "HTTP 429: resource exhausted")) 100
        [⟨"p1", some "openrouter", none, some "m", 1, true, 0⟩] "openrouter" [] "q").trace =
      [("p1", 1), ("p1", 2)] := ⟨rfl, rfl⟩

/-- C4: exactly two messages are appended on success, the user message with
the prompt text and then the assistant message tagged with the winning
provider id; on every failure, full exhaustion included, the history is
returned unchanged. -/
theorem C4_history_frame :
    ∀ (callFn : Provider → Nat → CallOutcome) (now : Nat) (providers : List Provider)
      (preferred : String) (hist : List Message) (prompt : String),
      (∀ pid t, (send_prompt callFn now providers preferred hist prompt).result = .success pid t →
        (send_prompt callFn now providers preferred hist prompt).history =
          hist ++ [⟨"user", .str prompt, none, now⟩, ⟨"assistant", t, some pid, now⟩]) ∧
      (∀ e, (send_prompt callFn now providers preferred hist prompt).result = .failure e →
        (send_prompt callFn now providers preferred hist prompt).history = hist) := by
  intro callFn now providers preferred hist prompt
  unfold send_prompt
  by_cases h1 : providers.isEmpty
  · simp [h1]
  · by_cases h2 : (providers.filter (·.enabled)).isEmpty
    · simp [h1, h2]
    · simp only [h1, h2, if_false]
      exact provLoop_hist_frame callFn now prompt (dispatchOrder providers preferred) none hist

/-- Witness for C4: a successful submission appends exactly the user and the
tagged assistant message. -/
theorem C4_witness :
    (send_prompt (fun _ _ => CallOutcome.ok (.str "hello")) 50
        [⟨"p1", some "openrouter", none, some "m", 1, true, 0⟩] "openrouter" [] "ask").history =
      [] ++ [⟨"user", .str "ask", none, 50⟩, ⟨"assistant", .str "hello", some "p1", 50⟩] :=
  (C4_history_frame (fun _ _ => CallOutcome.ok (.str "hello")) 50
      [⟨"p1", some "openrouter", none, some "m", 1, true, 0⟩] "openrouter" [] "ask").1
    "p1" (.str "hello") rfl

/-- C6 (amended): a Gemini-style provider whose model field is absent or
empty fails with the missing-model error before any network interaction (the
outcome does not depend on the network oracle), and the dispatcher treats
that error as a transient failure: it retries it up to the 2-attempt budget
(consuming the attempts), sets no cooldown on the provider, and then
advances to the next provider.  The original claim that such an error is not
retried does not hold (see the counterexample). -/
theorem C6_config_error_transient :
    (∀ (net : NetResult) (p : Provider), isGeminiBranch p = true → p.base_url ≠ none →
      (p.model = none ∨ p.model = some "") →
      call_provider net p = .exn (.generic geminiMissingModelMsg)) ∧
    (∀ (callFn : Provider → Nat → CallOutcome) (now : Nat) (prompt : String) (p : Provider)
       (rest : List Provider) (last : Option Failure) (hist : List Message) (m : String),
      cooldownActive p now = false →
      callFn p 1 = .exn (.generic m) → callFn p 2 = .exn (.generic m) →
      provLoop callFn now prompt (p :: rest) last hist =
        ⟨p :: (provLoop callFn now prompt rest (some (.generic m)) hist).provs,
         (provLoop callFn now prompt rest (some (.generic m)) hist).history,
         (p.id, 1) :: (p.id, 2) ::
           (provLoop callFn now prompt rest (some (.generic m)) hist).trace,
         (provLoop callFn now prompt rest (some (.generic m)) hist).result⟩) := by
  constructor
  · intro net p hg hb hm
    unfold call_provider
    rw [hg]
    cases hbu : p.base_url with
    | none => exact absurd hbu hb
    | some bu =>
      simp only [if_true]
      rcases hm with hm | hm
      · rw [hm]
      · rw [hm]
        rfl
  · intro callFn now prompt p rest last hist m hc h1 h2
    have hA : attemptLoop (callFn p) 1 MAX_PROVIDER_RETRIES last =
        (.exhausted (some (.generic m)), [1, 2]) :=
      attemptLoop_two (callFn p) last (.generic m) (.generic m) h1
        (fun s0 h => nomatch h) h2 (fun s0 h => nomatch h)
    rw [provLoop_exhausted callFn now prompt p rest last (some (.generic m)) hist [1, 2] hc hA]
    rfl

/-- Witness for C6: a Gemini provider without a model yields the
missing-model error even on a healthy network. -/
theorem C6_witness :
    call_provider (.resp ⟨200, some (.obj []), ""⟩)
        ⟨"g1", some "gemini", some "https://generativelanguage.googleapis.com", none, 1, true, 0⟩ =
      .exn (.generic geminiMissingModelMsg) :=
  C6_config_error_transient.1 (.resp ⟨200, some (.obj []), ""⟩)
    ⟨"g1", some "gemini", some "https://generativelanguage.googleapis.com", none, 1, true, 0⟩
    (by decide) (by decide) (Or.inl rfl)

/-- Counterexample for C6 as stated: the claim says the missing-model
failure consumes no retry attempts on the provider; in the run below the
trace records a second attempt on the same provider. -/
theorem C6_counterexample :
    (send_prompt (fun p _ => call_provider (.resp ⟨200, some (.obj []), ""⟩) p) 100
        [⟨"g1", some "gemini", some "https://generativelanguage.googleapis.com", none, 1, true, 0⟩]
        "gemini" [] "q").trace = [("g1", 1), ("g1", 2)] := rfl

/-- C10: a retryDelay of "0s", and a "PT" duration with all components
absent, parse to 0 rather than the 10 second default; every 429 on the
OpenAI-style branch raises a rate-limit failure carrying exactly the parsed
delay of its decoded body; and a rate-limit failure whose delay is 0 is
treated as transient by the dispatcher: the provider is retried against the
normal 2-attempt budget, no cooldown is set (the provider record is
unchanged), and the dispatcher then advances. -/
theorem C10_zero_delay_transient :
    parse_retry_delay_seconds (mkRetryPayload "0s") = 0 ∧
    parse_retry_delay_seconds (mkRetryPayload "PT") = 0 ∧
    (∀ (p : Provider) (r : HttpResp), isGeminiBranch p = false → r.status = 429 →
      call_provider (.resp r) p =
        .exn (.rateLimited (parse_retry_delay_seconds (r.body.getD (.obj [])))
          ("HTTP 429: " ++
            (if (r.body.getD (.obj [])).truthy then (r.body.getD (.obj [])).dumps else r.text)))) ∧
    (∀ (callFn : Provider → Nat → CallOutcome) (now : Nat) (prompt : String) (p : Provider)
       (rest : List Provider) (last : Option Failure) (hist : List Message) (m : String),
      cooldownActive p now = false →
      callFn p 1 = .exn (.rateLimited 0 m) → callFn p 2 = .exn (.rateLimited 0 m) →
      provLoop callFn now prompt (p :: rest) last hist =
        ⟨p :: (provLoop callFn now prompt rest (some (.rateLimited 0 m)) hist).provs,
         (provLoop callFn now prompt rest (some (.rateLimited 0 m)) hist).history,
         (p.id, 1) :: (p.id, 2) ::
           (provLoop callFn now prompt rest (some (.rateLimited 0 m)) hist).trace,
         (provLoop callFn now prompt rest (some (.rateLimited 0 m)) hist).result⟩) := by
  refine ⟨rfl, rfl, ?_, ?_⟩
  · intro p r hg hs
    simp only [call_provider, hg, Bool.false_eq_true, if_false, httpOutcome, hs, if_true,
      http429Exc]
  · intro callFn now prompt p rest last hist m hc h1 h2
    have hA : attemptLoop (callFn p) 1 MAX_PROVIDER_RETRIES last =
        (.exhausted (some (.rateLimited 0 m)), [1, 2]) :=
      attemptLoop_two (callFn p) last (.rateLimited 0 m) (.rateLimited 0 m) h1
        (fun s0 h => (Option.some.inj h).symm) h2 (fun s0 h => (Option.some.inj h).symm)
    rw [provLoop_exhausted callFn now prompt p rest last (some (.rateLimited 0 m)) hist [1, 2]
      hc hA]
    rfl

/-- Witness for C10: a 429 whose body parses to a 0 second delay raises a
rate-limit failure carrying 0. -/
theorem C10_witness :
    call_provider (.resp ⟨429, some (mkRetryPayload "0s"), "body"⟩)
        ⟨"p1", some "openrouter", none, some "m", 1, true, 0⟩ =
      .exn (.rateLimited 0 ("HTTP 429: " ++ (mkRetryPayload "0s").dumps)) := by
  have h := C10_zero_delay_transient.2.2.1
    ⟨"p1", some "openrouter", none, some "m", 1, true, 0⟩
    ⟨429, some (mkRetryPayload "0s"), "body"⟩ (by decide) rfl
  rw [h]
  rfl

/-! ## Lemmas about the duration parser -/

theorem takeWhile_app (p : Char → Bool) (l r : List Char) (hl : ∀ c ∈ l, p c = true) :
    (l ++ r).takeWhile p = l ++ r.takeWhile p := by
  induction l with
  | nil => rfl
  | cons c cs ih =>
    have hc : p c = true := hl c (List.mem_cons_self c cs)
    simp only [List.cons_append, List.takeWhile_cons, hc, if_true]
    rw [ih (fun x hx => hl x (List.mem_cons_of_mem c hx))]

theorem dropWhile_app (p : Char → Bool) (l r : List Char) (hl : ∀ c ∈ l, p c = true) :
    (l ++ r).dropWhile p = r.dropWhile p := by
  induction l with
  | nil => rfl
  | cons c cs ih =>
    have hc : p c = true := hl c (List.mem_cons_self c cs)
    simp only [List.cons_append, List.dropWhile_cons, hc, if_true]
    exact ih (fun x hx => hl x (List.mem_cons_of_mem c hx))

/-- The digit fold of the embedding agrees with the base-10 value of the
digit string in the Mathlib sense. -/
theorem digitsVal_eq_ofDigits (ds : List Char) :
    digitsVal ds = Nat.ofDigits 10 ((ds.map (fun c => c.toNat - 48)).reverse) := by
  induction ds using List.reverseRecOn with
  | nil => simp [digitsVal, Nat.ofDigits]
  | append_singleton l c ih =>
    have h1 : digitsVal (l ++ [c]) = (digitsVal l) * 10 + (c.toNat - 48) := by
      simp [digitsVal, List.foldl_append]
    rw [h1, ih]
    simp only [List.map_append, List.map_cons, List.map_nil, List.reverse_append,
      List.reverse_cons, List.reverse_nil, List.nil_append, List.cons_append]
    rw [Nat.ofDigits_cons]
    ring

theorem notEmpty_isEmpty_false {α : Type} (l : List α) (h : l ≠ []) : l.isEmpty = false := by
  cases l with
  | nil => exact absurd rfl h
  | cons a as => rfl

theorem mk_toList (l : List Char) : (String.mk l).toList = l := rfl

theorem matchSecondsPat_digits (ds : List Char) (hne : ds ≠ [])
    (hd : ∀ c ∈ ds, c.isDigit = true) :
    matchSecondsPat ⟨ds ++ ['s']⟩ = some (digitsVal ds) := by
  have hts : ('s').isDigit = false := rfl
  unfold matchSecondsPat
  rw [mk_toList, takeWhile_app _ ds ['s'] hd, dropWhile_app _ ds ['s'] hd]
  simp only [List.takeWhile_cons, hts, if_false, List.dropWhile_cons, List.append_nil,
    Bool.false_eq_true]
  rw [notEmpty_isEmpty_false ds hne]
  rfl

theorem matchSecondsPat_frac (ds fs : List Char) (hne : ds ≠ []) (hfne : fs ≠ [])
    (hd : ∀ c ∈ ds, c.isDigit = true) (hf : ∀ c ∈ fs, c.isDigit = true) :
    matchSecondsPat ⟨ds ++ '.' :: (fs ++ ['s'])⟩ = some (digitsVal ds) := by
  have hdot : ('.').isDigit = false := rfl
  have hts : ('s').isDigit = false := rfl
  unfold matchSecondsPat
  rw [mk_toList, takeWhile_app _ ds _ hd, dropWhile_app _ ds _ hd]
  simp only [List.takeWhile_cons, hdot, if_false, List.dropWhile_cons, List.append_nil,
    Bool.false_eq_true]
  rw [notEmpty_isEmpty_false ds hne]
  simp only [Bool.false_eq_true, if_false]
  rw [takeWhile_app _ fs ['s'] hf, dropWhile_app _ fs ['s'] hf]
  simp only [List.takeWhile_cons, hts, if_false, List.dropWhile_cons, List.append_nil,
    Bool.false_eq_true]
  rw [notEmpty_isEmpty_false fs hfne]
  rfl

theorem ptComponent_hit (mark : Char) (ds rest : List Char) (hne : ds ≠ [])
    (hd : ∀ c ∈ ds, c.isDigit = true) (hm : mark.isDigit = false) :
    ptComponent mark (ds ++ mark :: rest) = (some (digitsVal ds), rest) := by
  unfold ptComponent
  rw [takeWhile_app _ ds _ hd, dropWhile_app _ ds _ hd]
  simp only [List.takeWhile_cons, hm, if_false, List.dropWhile_cons, List.append_nil,
    Bool.false_eq_true]
  rw [notEmpty_isEmpty_false ds hne]
  simp

theorem matchPTPat_full (hs ms ss : List Char)
    (h1 : hs ≠ []) (h2 : ms ≠ []) (h3 : ss ≠ [])
    (hd1 : ∀ c ∈ hs, c.isDigit = true) (hd2 : ∀ c ∈ ms, c.isDigit = true)
    (hd3 : ∀ c ∈ ss, c.isDigit = true) :
    matchPTPat ⟨'P' :: 'T' :: (hs ++ 'H' :: (ms ++ 'M' :: (ss ++ ['S'])))⟩ =
      some (digitsVal hs * 3600 + digitsVal ms * 60 + digitsVal ss) := by
  unfold matchPTPat
  rw [mk_toList]
  have hss : ss ++ ['S'] = ss ++ 'S' :: ([] : List Char) := rfl
  simp only [hss, ptComponent_hit 'H' hs _ h1 hd1 rfl, ptComponent_hit 'M' ms _ h2 hd2 rfl,
    ptComponent_hit 'S' ss [] h3 hd3 rfl]
  rfl

/-- The parser applied to a well-shaped RetryInfo payload with a truthy
delay string reduces to the two patterns with the 10 second fall-through. -/
theorem mkRetryPayload_parse (s : String) (hs : s ≠ "") :
    parse_retry_delay_seconds (mkRetryPayload s) = (tryPatterns (pyStrip s)).getD 10 := by
  unfold parse_retry_delay_seconds parseCore mkRetryPayload retryLoop
  simp only [pyDictGet, pyContains, pyToStr, List.lookup, Json.truthy, bind, Except.bind,
    BEq.beq, decide_True, if_true, Option.getD]
  have hri : pyInStr "RetryInfo" "type.googleapis.com/google.rpc.RetryInfo" = true := by decide
  cases h : tryPatterns (pyStrip s) with
  | none => simp [h, hs, retryLoop, hri]
  | some n => simp [h, hs, retryLoop, hri]

/-- C5: the duration parser returns the floor of a decimal-seconds string
with trailing s (the fractional digits are discarded by the regex capture),
returns hours*3600 + minutes*60 + seconds for a PT-style duration, routes a
well-shaped RetryInfo payload through exactly these two patterns with 10 as
the fall-through, never raises (it is a total function of the payload), and
returns 10 on the malformed and mis-shaped payloads of the claim, matching
the concrete examples 13s, 13.5s and PT1H2M3S. -/
theorem C5_retry_delay_rules :
    (∀ ds : List Char, ds ≠ [] → (∀ c ∈ ds, c.isDigit = true) →
      tryPatterns ⟨ds ++ ['s']⟩ =
        some (Nat.ofDigits 10 ((ds.map (fun c => c.toNat - 48)).reverse))) ∧
    (∀ ds fs : List Char, ds ≠ [] → fs ≠ [] → (∀ c ∈ ds, c.isDigit = true) →
      (∀ c ∈ fs, c.isDigit = true) →
      tryPatterns ⟨ds ++ '.' :: (fs ++ ['s'])⟩ =
        some (Nat.ofDigits 10 ((ds.map (fun c => c.toNat - 48)).reverse))) ∧
    (∀ hs ms ss : List Char, hs ≠ [] → ms ≠ [] → ss ≠ [] →
      (∀ c ∈ hs, c.isDigit = true) → (∀ c ∈ ms, c.isDigit = true) →
      (∀ c ∈ ss, c.isDigit = true) →
      tryPatterns ⟨'P' :: 'T' :: (hs ++ 'H' :: (ms ++ 'M' :: (ss ++ ['S'])))⟩ =
        some (Nat.ofDigits 10 ((hs.map (fun c => c.toNat - 48)).reverse) * 3600 +
              Nat.ofDigits 10 ((ms.map (fun c => c.toNat - 48)).reverse) * 60 +
              Nat.ofDigits 10 ((ss.map (fun c => c.toNat - 48)).reverse))) ∧
    (∀ s : String, s ≠ "" →
      parse_retry_delay_seconds (mkRetryPayload s) = (tryPatterns (pyStrip s)).getD 10) ∧
    parse_retry_delay_seconds (mkRetryPayload "13s") = 13 ∧
    parse_retry_delay_seconds (mkRetryPayload "13.5s") = 13 ∧
    parse_retry_delay_seconds (mkRetryPayload "PT1H2M3S") = 3723 ∧
    parse_retry_delay_seconds Json.null = 10 ∧
    parse_retry_delay_seconds (.obj []) = 10 ∧
    parse_retry_delay_seconds (mkRetryPayload "soon") = 10 ∧
    parse_retry_delay_seconds (.obj [("error", .str "x")]) = 10 ∧
    parse_retry_delay_seconds (.obj [("error", .obj [("details", .str "zz")])]) = 10 := by
  refine ⟨?_, ?_, ?_, mkRetryPayload_parse, rfl, rfl, rfl, rfl, rfl, rfl, rfl, rfl⟩
  · intro ds hne hd
    unfold tryPatterns
    rw [matchSecondsPat_digits ds hne hd, digitsVal_eq_ofDigits]
  · intro ds fs hne hfne hd hf
    unfold tryPatterns
    rw [matchSecondsPat_frac ds fs hne hfne hd hf, digitsVal_eq_ofDigits]
  · intro hs ms ss h1 h2 h3 hd1 hd2 hd3
    have hnone : matchSecondsPat ⟨'P' :: 'T' :: (hs ++ 'H' :: (ms ++ 'M' :: (ss ++ ['S'])))⟩ =
        none := by
      unfold matchSecondsPat
      rw [mk_toList]
      simp [List.takeWhile_cons]
    unfold tryPatterns
    rw [hnone, matchPTPat_full hs ms ss h1 h2 h3 hd1 hd2 hd3,
      digitsVal_eq_ofDigits hs, digitsVal_eq_ofDigits ms, digitsVal_eq_ofDigits ss]

/-- Witness for C5: the digit-string rule at the concrete input 42s. -/
theorem C5_witness :
    tryPatterns ⟨['4', '2'] ++ ['s']⟩ =
      some (Nat.ofDigits 10 ((['4', '2'].map (fun c => c.toNat - 48)).reverse)) :=
  C5_retry_delay_rules.1 ['4', '2'] (by decide) (by decide)

/-! ## Lemmas about the OpenAI-style response parser -/

theorem openaiParse_noChoices (kvs : List (String × Json)) (h : kvs.lookup "choices" = none) :
    openaiParse (.obj kvs) = .ok (.str (Json.obj kvs).dumps) := by
  simp [openaiParse, pyContains, h, bind, Except.bind, pure, Except.pure]

theorem openaiParse_falsyChoices (kvs : List (String × Json)) (v : Json)
    (h : kvs.lookup "choices" = some v) (hv : v.truthy = false) :
    openaiParse (.obj kvs) = .ok (.str (Json.obj kvs).dumps) := by
  simp [openaiParse, pyContains, pyGetItem, h, hv, bind, Except.bind, pure, Except.pure]

theorem openaiParse_message (kvs ckvs mkvs : List (String × Json)) (ch : Json)
    (rest : List Json)
    (h : kvs.lookup "choices" = some (.arr (ch :: rest)))
    (hch : ch = .obj ckvs) (hm : ckvs.lookup "message" = some (.obj mkvs)) :
    openaiParse (.obj kvs) = .ok ((mkvs.lookup "content").getD .null) := by
  subst hch
  simp [openaiParse, pyContains, pyGetItem, pyIndex0, h, hm, Json.truthy, bind, Except.bind,
    pure, Except.pure]

theorem openaiParse_msgNonDict (kvs ckvs : List (String × Json)) (ch m : Json)
    (rest : List Json)
    (h : kvs.lookup "choices" = some (.arr (ch :: rest)))
    (hch : ch = .obj ckvs) (hm : ckvs.lookup "message" = some m)
    (hnd : ∀ mk : List (String × Json), m ≠ .obj mk) :
    openaiParse (.obj kvs) =
      .ok (if ((ckvs.lookup "text").getD .null).truthy then (ckvs.lookup "text").getD .null
           else .str (Json.obj ckvs).dumps) := by
  subst hch
  cases m with
  | obj mk => exact absurd rfl (hnd mk)
  | null =>
    simp [openaiParse, pyContains, pyGetItem, pyIndex0, h, hm, Json.truthy, textFallback,
      pyDictGet, bind, Except.bind, pure, Except.pure]
    split <;> rfl
  | bool b =>
    simp [openaiParse, pyContains, pyGetItem, pyIndex0, h, hm, Json.truthy, textFallback,
      pyDictGet, bind, Except.bind, pure, Except.pure]
    split <;> rfl
  | num n =>
    simp [openaiParse, pyContains, pyGetItem, pyIndex0, h, hm, Json.truthy, textFallback,
      pyDictGet, bind, Except.bind, pure, Except.pure]
    split <;> rfl
  | str s =>
    simp [openaiParse, pyContains, pyGetItem, pyIndex0, h, hm, Json.truthy, textFallback,
      pyDictGet, bind, Except.bind, pure, Except.pure]
    split <;> rfl
  | arr xs =>
    simp [openaiParse, pyContains, pyGetItem, pyIndex0, h, hm, Json.truthy, textFallback,
      pyDictGet, bind, Except.bind, pure, Except.pure]
    split <;> rfl

theorem openaiParse_noMessage (kvs ckvs : List (String × Json)) (ch : Json)
    (rest : List Json)
    (h : kvs.lookup "choices" = some (.arr (ch :: rest)))
    (hch : ch = .obj ckvs) (hm : ckvs.lookup "message" = none) :
    openaiParse (.obj kvs) =
      .ok (if ((ckvs.lookup "text").getD .null).truthy then (ckvs.lookup "text").getD .null
           else .str (Json.obj ckvs).dumps) := by
  subst hch
  simp [openaiParse, pyContains, pyGetItem, pyIndex0, h, hm, Json.truthy, textFallback,
    pyDictGet, bind, Except.bind, pure, Except.pure]
  split <;> rfl

theorem openaiParse_goodShape_ok (kvs ckvs : List (String × Json)) (ch : Json)
    (rest : List Json)
    (h : kvs.lookup "choices" = some (.arr (ch :: rest))) (hch : ch = .obj ckvs) :
    (openaiParse (.obj kvs)).isOk = true := by
  cases hm : ckvs.lookup "message" with
  | none => rw [openaiParse_noMessage kvs ckvs ch rest h hch hm]; rfl
  | some m =>
    cases hmo : m with
    | obj mk =>
      rw [openaiParse_message kvs ckvs mk ch rest h hch (hmo ▸ hm)]
      rfl
    | null => rw [openaiParse_msgNonDict kvs ckvs ch m rest h hch hm (by simp [hmo])]; rfl
    | bool b => rw [openaiParse_msgNonDict kvs ckvs ch m rest h hch hm (by simp [hmo])]; rfl
    | num n => rw [openaiParse_msgNonDict kvs ckvs ch m rest h hch hm (by simp [hmo])]; rfl
    | str s2 => rw [openaiParse_msgNonDict kvs ckvs ch m rest h hch hm (by simp [hmo])]; rfl
    | arr xs => rw [openaiParse_msgNonDict kvs ckvs ch m rest h hch hm (by simp [hmo])]; rfl

/-- C7 (amended): for every 200-status OpenAI-style response body that is a
JSON object, the adapter succeeds when the choices field is absent or falsy
(stringified whole body) and when choices is a non-empty array whose first
element is an object (preferring message/content when message is an object,
then a truthy flat text field, then the stringified choice object).  The
original never-fails claim does not hold when a truthy non-array choices
value, or a non-object first choice, is present: the source indexes and
dereferences them and raises (see the counterexample). -/
theorem C7_openai_parse :
    (∀ kvs : List (String × Json), kvs.lookup "choices" = none →
      openaiParse (.obj kvs) = .ok (.str (Json.obj kvs).dumps)) ∧
    (∀ (kvs : List (String × Json)) (v : Json), kvs.lookup "choices" = some v →
      v.truthy = false → openaiParse (.obj kvs) = .ok (.str (Json.obj kvs).dumps)) ∧
    (∀ (kvs ckvs mkvs : List (String × Json)) (ch : Json) (rest : List Json),
      kvs.lookup "choices" = some (.arr (ch :: rest)) → ch = .obj ckvs →
      ckvs.lookup "message" = some (.obj mkvs) →
      openaiParse (.obj kvs) = .ok ((mkvs.lookup "content").getD .null)) ∧
    (∀ (kvs ckvs : List (String × Json)) (ch m : Json) (rest : List Json),
      kvs.lookup "choices" = some (.arr (ch :: rest)) → ch = .obj ckvs →
      ckvs.lookup "message" = some m → (∀ mk : List (String × Json), m ≠ .obj mk) →
      openaiParse (.obj kvs) =
        .ok (if ((ckvs.lookup "text").getD .null).truthy then (ckvs.lookup "text").getD .null
             else .str (Json.obj ckvs).dumps)) ∧
    (∀ (kvs ckvs : List (String × Json)) (ch : Json) (rest : List Json),
      kvs.lookup "choices" = some (.arr (ch :: rest)) → ch = .obj ckvs →
      ckvs.lookup "message" = none →
      openaiParse (.obj kvs) =
        .ok (if ((ckvs.lookup "text").getD .null).truthy then (ckvs.lookup "text").getD .null
             else .str (Json.obj ckvs).dumps)) ∧
    (∀ (kvs ckvs : List (String × Json)) (ch : Json) (rest : List Json),
      kvs.lookup "choices" = some (.arr (ch :: rest)) → ch = .obj ckvs →
      (openaiParse (.obj kvs)).isOk = true) :=
  ⟨openaiParse_noChoices, openaiParse_falsyChoices, openaiParse_message,
   openaiParse_msgNonDict, openaiParse_noMessage, openaiParse_goodShape_ok⟩

/-- Witness for C7: the message/content preference at a concrete body. -/
theorem C7_witness :
    openaiParse (.obj [("choices", .arr [.obj [("message", .obj [("content", .str "ok")])]])]) =
      .ok (([("content", Json.str "ok")].lookup "content").getD .null) :=
  C7_openai_parse.2.2.1 [("choices", .arr [.obj [("message", .obj [("content", .str "ok")])]])]
    [("message", .obj [("content", .str "ok")])] [("content", .str "ok")]
    (.obj [("message", .obj [("content", .str "ok")])]) [] rfl rfl rfl

/-- Counterexample for C7 as stated: a 200 body whose choices field is a
truthy non-array.  The claim demands success with the stringified whole
body; instead the parser raises (the dispatcher then sees a generic
failure). -/
theorem C7_counterexample :
    (openaiParse (.obj [("choices", .str "x")])).isOk = false ∧
    call_provider (.resp ⟨200, some (.obj [("choices", .str "x")]), "b"⟩)
        ⟨"o1", some "openrouter", none, some "m", 1, true, 0⟩ =
      .exn (.generic "AttributeError: object has no attribute get") ∧
    openaiParse (.obj [("choices", .str "x")]) ≠
      .ok (.str (Json.obj [("choices", .str "x")]).dumps) :=
  ⟨rfl, rfl, fun h => nomatch h⟩

/-! ## Lemmas about provider ordering -/

/-- The Python `others = [p for p in provs if p not in matching]` comprehension
with `matching = [p for p in provs if pred(p)]` keeps exactly the elements
failing the predicate. -/
theorem filter_not_mem_filter {α : Type} [DecidableEq α] (l : List α) (pred : α → Bool) :
    l.filter (fun p => !((l.filter pred).contains p)) = l.filter (fun p => !(pred p)) := by
  apply List.filter_congr
  intro a ha
  congr 1
  by_cases hp : pred a = true
  · have hmem : a ∈ l.filter pred := List.mem_filter.mpr ⟨ha, hp⟩
    rw [hp]
    exact List.elem_iff.mpr hmem
  · rw [Bool.not_eq_true] at hp
    rw [hp]
    cases hc : (l.filter pred).contains a
    · rfl
    · have hmem : a ∈ l.filter pred := List.elem_iff.mp hc
      have := (List.mem_filter.mp hmem).2
      rw [hp] at this
      cases this

/-- Inserting one element into a list leaves the sublist at any fixed
priority value prepended-in-place: the stability of one insertion step. -/
theorem orderedInsert_filter_key (a : Provider) (l : List Provider) (c : Int) :
    ((List.orderedInsert (fun x y => x.priority ≤ y.priority) a l).filter
        (fun p => p.priority == c)) =
      ((a :: l).filter (fun p => p.priority == c)) := by
  induction l with
  | nil => rfl
  | cons b t ih =>
    by_cases hr : a.priority ≤ b.priority
    · simp only [List.orderedInsert, if_pos hr]
    · simp only [List.orderedInsert, if_neg hr]
      by_cases hbc : b.priority == c
      · by_cases hac : a.priority == c
        · exfalso
          have hb : b.priority = c := by simpa using hbc
          have ha2 : a.priority = c := by simpa using hac
          exact hr (by rw [hb, ha2])
        · simp only [List.filter_cons, hbc, hac, if_pos, if_neg, cond_true, cond_false]
          rw [ih]
          simp [List.filter_cons, hac, hbc]
      · simp only [List.filter_cons, hbc, cond_false]
        rw [ih]
        simp [List.filter_cons, hbc]

/-- The stable sort keeps ties in original order: restricting the sorted
list to any one priority value gives back the input restricted to it. -/
theorem insertionSort_filter_key (l : List Provider) (c : Int) :
    ((List.insertionSort (fun x y => x.priority ≤ y.priority) l).filter
        (fun p => p.priority == c)) =
      (l.filter (fun p => p.priority == c)) := by
  induction l with
  | nil => rfl
  | cons a t ih =>
    simp only [List.insertionSort]
    rw [orderedInsert_filter_key]
    simp only [List.filter_cons]
    rw [ih]

/-- For a lower-case preferred token the send_prompt ordering is exactly the
case-insensitive partition of the enabled providers: matching first,
the rest after, each keeping its relative order (they are filters). -/
theorem dispatchOrder_partition (provs : List Provider) (preferred : String)
    (hne : preferred ≠ "") (hlow : pyLower preferred = preferred) :
    dispatchOrder provs preferred =
      (provs.filter (·.enabled)).filter
        (fun p => p.ptype == some preferred || pyInStr (pyLower preferred) (pyLower p.id)) ++
      (provs.filter (·.enabled)).filter
        (fun p => !(p.ptype == some preferred || pyInStr (pyLower preferred) (pyLower p.id))) := by
  unfold dispatchOrder
  rw [if_pos hne]
  dsimp only
  rw [filter_not_mem_filter]
  unfold matchesPreferred
  rw [hlow]

/-- load_providers sorts ascending by priority. -/
theorem load_providers_sorted (fresh : Nat → String) (raw : List RawProvider) :
    List.Sorted (fun a b : Provider => a.priority ≤ b.priority)
      (load_providers fresh raw) := by
  haveI h1 : IsTotal Provider (fun a b => a.priority ≤ b.priority) :=
    ⟨fun a b => le_total a.priority b.priority⟩
  haveI h2 : IsTrans Provider (fun a b => a.priority ≤ b.priority) :=
    ⟨fun a b c hab hbc => le_trans hab hbc⟩
  exact List.sorted_insertionSort _ _

/-- C3 (amended): for every provider list and non-empty lower-case preferred
token (the program only ever uses "gemini" and "openrouter"), the call order
is: enabled providers whose declared type equals the token or whose id
contains it (case-insensitively) first, then the rest, both partitions
keeping the relative order of the enabled list; the load order is ascending
by priority with ties kept in input order; and for P1(priority 10, type A),
P2(priority 5, type B), P3(priority 20, type A) with preferred type A the
order is P1, P3, P2.  For a token with upper-case letters the id-containment
test of the source is not case-insensitive (only the id is lower-cased), see
the counterexample. -/
theorem C3_dispatch_order :
    (∀ (provs : List Provider) (preferred : String), preferred ≠ "" →
      pyLower preferred = preferred →
      dispatchOrder provs preferred =
        (provs.filter (·.enabled)).filter
          (fun p => p.ptype == some preferred || pyInStr (pyLower preferred) (pyLower p.id)) ++
        (provs.filter (·.enabled)).filter
          (fun p => !(p.ptype == some preferred ||
            pyInStr (pyLower preferred) (pyLower p.id)))) ∧
    (∀ (fresh : Nat → String) (raw : List RawProvider),
      List.Sorted (fun a b : Provider => a.priority ≤ b.priority)
        (load_providers fresh raw)) ∧
    (∀ (fresh : Nat → String) (raw : List RawProvider) (c : Int),
      (load_providers fresh raw).filter (fun p => p.priority == c) =
        ((applyDefaults fresh raw).filter (·.enabled)).filter (fun p => p.priority == c)) ∧
    ((dispatchOrder
        (load_providers (fun _ => "u")
          [⟨some "P1", none, some "A", none, none, some 10, none⟩,
           ⟨some "P2", none, some "B", none, none, some 5, none⟩,
           ⟨some "P3", none, some "A", none, none, some 20, none⟩]) "A").map (·.id) =
      ["P1", "P3", "P2"]) := by
  refine ⟨dispatchOrder_partition, load_providers_sorted, ?_, rfl⟩
  intro fresh raw c
  unfold load_providers
  exact insertionSort_filter_key _ c

/-- Witness for C3: the partition equation at a concrete pair of providers
with the lower-case token gemini. -/
theorem C3_witness :
    dispatchOrder [⟨"g1", some "gemini", none, none, 1, true, 0⟩,
                   ⟨"o1", some "openrouter", none, none, 2, true, 0⟩] "gemini" =
      ([⟨"g1", some "gemini", none, none, 1, true, 0⟩,
        ⟨"o1", some "openrouter", none, none, 2, true, 0⟩].filter (·.enabled)).filter
          (fun p => p.ptype == some "gemini" || pyInStr (pyLower "gemini") (pyLower p.id)) ++
      ([⟨"g1", some "gemini", none, none, 1, true, 0⟩,
        ⟨"o1", some "openrouter", none, none, 2, true, 0⟩].filter (·.enabled)).filter
          (fun p => !(p.ptype == some "gemini" || pyInStr (pyLower "gemini") (pyLower p.id))) :=
  C3_dispatch_order.1 [⟨"g1", some "gemini", none, none, 1, true, 0⟩,
    ⟨"o1", some "openrouter", none, none, 2, true, 0⟩] "gemini" (by decide) (by decide)

/-- Counterexample for C3 as stated: with preferred type GEMINI the id
aagemini contains the token case-insensitively, so the claim puts that
provider into the first partition and predicts the order [aagemini, bbb];
the source lower-cases only the id, the containment test fails, and the
order stays [bbb, aagemini]. -/
theorem C3_counterexample :
    dispatchOrder [⟨"bbb", some "t2", none, none, 1, true, 0⟩,
                   ⟨"aagemini", some "t1", none, none, 2, true, 0⟩] "GEMINI" =
      [⟨"bbb", some "t2", none, none, 1, true, 0⟩,
       ⟨"aagemini", some "t1", none, none, 2, true, 0⟩] ∧
    pyInStr (pyLower "GEMINI") (pyLower "aagemini") = true ∧
    matchesPreferred "GEMINI" ⟨"aagemini", some "t1", none, none, 2, true, 0⟩ = false ∧
    dispatchOrder [⟨"bbb", some "t2", none, none, 1, true, 0⟩,
                   ⟨"aagemini", some "t1", none, none, 2, true, 0⟩] "GEMINI" ≠
      [⟨"aagemini", some "t1", none, none, 2, true, 0⟩,
       ⟨"bbb", some "t2", none, none, 1, true, 0⟩] := ⟨rfl, rfl, rfl, by decide⟩

/-! ## Lemmas about the response extractor -/

/-- The head of the stable descending length sort is the first block of
maximal character count. -/
theorem head_sortDesc (l : List String) :
    (List.insertionSort (fun a b => b.length ≤ a.length) l).head? = firstLongest l := by
  induction l with
  | nil => rfl
  | cons b t ih =>
    simp only [List.insertionSort, firstLongest]
    cases hs : List.insertionSort (fun a b => b.length ≤ a.length) t with
    | nil =>
      rw [hs] at ih
      rw [← ih]
      rfl
    | cons c s2 =>
      rw [hs] at ih
      rw [← ih]
      simp only [List.orderedInsert, List.head?]
      by_cases hr : c.length ≤ b.length
      · rw [if_pos hr]
        have hlt : ¬ b.length < c.length := by omega
        rw [if_neg hlt]
      · rw [if_neg hr]
        have hlt : b.length < c.length := by omega
        rw [if_pos hlt]

theorem head_dropWhile_not (p : Char → Bool) (l : List Char) (c : Char)
    (h : (l.dropWhile p).head? = some c) : p c = false := by
  induction l with
  | nil => cases h
  | cons a t ih =>
    by_cases hp : p a = true
    · rw [List.dropWhile_cons, if_pos hp] at h
      exact ih h
    · rw [Bool.not_eq_true] at hp
      rw [List.dropWhile_cons, hp] at h
      simp at h
      rw [← h]
      exact hp

/-- rstrip output never ends in a newline, so the ensure-trailing-newline
step always appends exactly one. -/
theorem pyRstrip_no_nl (s : String) : (pyRstrip s).toList.getLast? ≠ some '\n' := by
  intro h
  have h2 : ((s.toList.reverse.dropWhile Char.isWhitespace).reverse).getLast? = some '\n' := h
  rw [List.getLast?_reverse] at h2
  have := head_dropWhile_not Char.isWhitespace s.toList.reverse '\n' h2
  cases this

theorem firstLongest_ne_nil {l : List String} {b : String} (h : firstLongest l = some b) :
    l ≠ [] := by
  intro he
  rw [he] at h
  cases h

theorem headD_of_head? {l : List String} {b : String} (h : l.head? = some b) :
    l.headD "" = b := by
  cases l with
  | nil => cases h
  | cons a t => cases h; rfl

/-- The fence branch of minimalize_response: the first longest block,
right-stripped, with exactly one trailing newline appended. -/
theorem mm_fence_branch (text : String) (b : String) (htext : text ≠ "")
    (hb : firstLongest (findFences text.toList) = some b) :
    minimalize_response text = "// code (extracted)\n" ++ pyRstrip b ++ "\n" := by
  have hne2 : findFences text.toList ≠ [] := firstLongest_ne_nil hb
  have hhead : (List.insertionSort (fun a b => b.length ≤ a.length)
      (findFences text.toList)).head? = some b := by
    rw [head_sortDesc]
    exact hb
  have hD : (List.insertionSort (fun a b => b.length ≤ a.length)
      (findFences text.toList)).headD "" = b := headD_of_head? hhead
  unfold minimalize_response
  rw [if_neg htext]
  rw [notEmpty_isEmpty_false _ hne2]
  simp only [Bool.false_eq_true, if_false]
  rw [hD]
  rw [if_neg (pyRstrip_no_nl b)]

/-- The heuristic branch of minimalize_response. -/
theorem mm_heuristic_branch (text : String) (htext : text ≠ "")
    (hn : findFences text.toList = [])
    (hc : 2 ≤ countNonBlank (groupCodeLines (pySplitlines text) [])) :
    minimalize_response text =
      "// code (heuristic)\n" ++
        (pyStrip (joinWith "\n" (groupCodeLines (pySplitlines text) [])) ++ "\n") := by
  unfold minimalize_response
  rw [if_neg htext, hn]
  simp only [List.isEmpty_nil, if_true]
  rw [if_pos hc]

/-- The minimal branch of minimalize_response. -/
theorem mm_minimal_branch (text : String) (htext : text ≠ "")
    (hn : findFences text.toList = [])
    (hc : countNonBlank (groupCodeLines (pySplitlines text) []) < 2) :
    minimalize_response text =
      "// response (minimal)\n" ++
        takeChars 1200 (joinWith " " (pySplitlines (pyStrip text))) := by
  unfold minimalize_response
  rw [if_neg htext, hn]
  simp only [List.isEmpty_nil, if_true]
  rw [if_neg (by omega)]

/-- C8: empty input gives the empty string; when fenced blocks exist the
result is the first longest block, trailing whitespace stripped, exactly one
trailing newline, prefixed with the extracted marker; otherwise when the
grouped code-like lines have at least 2 non-blank members the result is the
grouped text with the heuristic marker; otherwise the whitespace-joined
single line truncated to 1200 characters with the minimal marker. -/
theorem C8_extract :
    minimalize_response "" = "" ∧
    (∀ text : String, text ≠ "" →
      (∀ b, firstLongest (findFences text.toList) = some b →
        minimalize_response text = "// code (extracted)\n" ++ pyRstrip b ++ "\n") ∧
      (findFences text.toList = [] →
        (2 ≤ countNonBlank (groupCodeLines (pySplitlines text) []) →
          minimalize_response text =
            "// code (heuristic)\n" ++
              (pyStrip (joinWith "\n" (groupCodeLines (pySplitlines text) [])) ++ "\n")) ∧
        (countNonBlank (groupCodeLines (pySplitlines text) []) < 2 →
          minimalize_response text =
            "// response (minimal)\n" ++
              takeChars 1200 (joinWith " " (pySplitlines (pyStrip text)))))) :=
  ⟨rfl, fun text htext =>
    ⟨fun b hb => mm_fence_branch text b htext hb,
     fun hn => ⟨mm_heuristic_branch text htext hn, mm_minimal_branch text htext hn⟩⟩⟩

/-- Witness for C8: a single fenced block is extracted. -/
theorem C8_witness :
    minimalize_response ⟨[btChar, btChar, btChar, '\n', 'h', 'i', btChar, btChar, btChar]⟩ =
      "// code (extracted)\n" ++ pyRstrip "hi" ++ "\n" :=
  (C8_extract.2 ⟨[btChar, btChar, btChar, '\n', 'h', 'i', btChar, btChar, btChar]⟩
      (by decide)).1 "hi" (by decide)

/-! ## Lemmas for the extractor re-run -/

theorem toList_append (s t : String) : (s ++ t).toList = s.toList ++ t.toList := by
  cases s
  cases t
  rfl

theorem listPrefixEq_app (l r : List Char) : listPrefixEq l (l ++ r) = true := by
  induction l with
  | nil => rfl
  | cons c t ih => simp [listPrefixEq, ih]

theorem strStartsWith_append (p r : String) : strStartsWith (p ++ r) p = true := by
  unfold strStartsWith
  rw [toList_append]
  exact listPrefixEq_app p.toList r.toList

theorem splitNl_ne_nil (l : List Char) : splitNl l ≠ [] := by
  induction l with
  | nil => simp [splitNl]
  | cons c t ih =>
    unfold splitNl at ih ⊢
    rw [List.foldr_cons]
    cases h : List.foldr _ [[]] t with
    | nil => exact absurd h ih
    | cons s rest =>
      by_cases hc : c = '\n' <;> simp [hc]

theorem splitNl_cons_nl (t : List Char) :
    splitNl ('\n' :: t) = [] :: splitNl t := by
  unfold splitNl
  rw [List.foldr_cons]
  cases h : List.foldr _ [[]] t with
  | nil => exact absurd h (splitNl_ne_nil t)
  | cons s rest => simp

theorem splitNl_cons_other (c : Char) (t : List Char) (hc : c ≠ '\n') :
    splitNl (c :: t) =
      (c :: (splitNl t).headD []) :: (splitNl t).tail := by
  unfold splitNl
  rw [List.foldr_cons]
  cases h : List.foldr _ [[]] t with
  | nil => exact absurd h (splitNl_ne_nil t)
  | cons s rest => simp [hc]

theorem splitNl_of_noNl (l : List Char) (h : '\n' ∉ l) : splitNl l = [l] := by
  induction l with
  | nil => rfl
  | cons c t ih =>
    have hc : c ≠ '\n' := fun he => h (he ▸ List.mem_cons_self c t)
    have ht : '\n' ∉ t := fun hm => h (List.mem_cons_of_mem c hm)
    rw [splitNl_cons_other c t hc, ih ht]
    rfl

theorem splitNl_app_nl (l1 l2 : List Char) (h : '\n' ∉ l1) :
    splitNl (l1 ++ '\n' :: l2) = l1 :: splitNl l2 := by
  induction l1 with
  | nil => exact splitNl_cons_nl l2
  | cons c t ih =>
    have hc : c ≠ '\n' := fun he => h (he ▸ List.mem_cons_self c t)
    have ht : '\n' ∉ t := fun hm => h (List.mem_cons_of_mem c hm)
    rw [List.cons_append, splitNl_cons_other c _ hc, ih ht]
    rfl

theorem mem_splitNl_noNl (l : List Char) (seg : List Char) (hm : seg ∈ splitNl l) :
    '\n' ∉ seg := by
  induction l generalizing seg with
  | nil =>
    simp [splitNl] at hm
    simp [hm]
  | cons c t ih =>
    by_cases hc : c = '\n'
    · subst hc
      rw [splitNl_cons_nl] at hm
      rcases List.mem_cons.mp hm with h1 | h1
      · simp [h1]
      · exact ih seg h1
    · rw [splitNl_cons_other c t hc] at hm
      rcases List.mem_cons.mp hm with h1 | h1
      · subst h1
        intro hmem
        rcases List.mem_cons.mp hmem with h2 | h2
        · exact hc h2.symm
        · have : (splitNl t).headD [] ∈ splitNl t := by
            cases hs : splitNl t with
            | nil => exact absurd hs (splitNl_ne_nil t)
            | cons a r => exact List.mem_cons_self a r
          exact ih _ this h2
      · have : seg ∈ splitNl t := by
          cases hs : splitNl t with
          | nil => exact absurd hs (splitNl_ne_nil t)
          | cons a r =>
            rw [hs] at h1
            exact List.mem_cons_of_mem a h1
        exact ih seg this

theorem pySplitlines_noNl (s : String) (seg : String) (hm : seg ∈ pySplitlines s) :
    '\n' ∉ seg.toList := by
  unfold pySplitlines at hm
  by_cases hs : s = ""
  · simp [hs] at hm
  · rw [if_neg hs] at hm
    have hsub : seg ∈ (splitNl s.toList).map (fun l => (⟨l⟩ : String)) := by
      by_cases hlast :
          ((splitNl s.toList).map (fun l => (⟨l⟩ : String))).getLast? = some ""
      · rw [if_pos hlast] at hm
        exact (List.dropLast_sublist _).mem hm
      · rw [if_neg hlast] at hm
        exact hm
    obtain ⟨l, hl, he⟩ := List.mem_map.mp hsub
    subst he
    exact mem_splitNl_noNl s.toList l hl

theorem joinWith_space_noNl (ls : List String) (h : ∀ s ∈ ls, '\n' ∉ s.toList) :
    '\n' ∉ (joinWith " " ls).toList := by
  induction ls with
  | nil => simp [joinWith]
  | cons x t ih =>
    cases t with
    | nil =>
      simp only [joinWith]
      exact h x (List.mem_cons_self x [])
    | cons y r =>
      simp only [joinWith]
      rw [toList_append, toList_append]
      intro hmem
      rcases List.mem_append.mp hmem with h1 | h1
      · rcases List.mem_append.mp h1 with h2 | h2
        · exact h x (List.mem_cons_self x _) h2
        · simp at h2
      · exact ih (fun s hs => h s (List.mem_cons_of_mem x hs)) h1

theorem takeChars_noNl (n : Nat) (s : String) (h : '\n' ∉ s.toList) :
    '\n' ∉ (takeChars n s).toList := by
  intro hmem
  exact h (List.take_subset n s.toList hmem)

/-- The whitespace-joined truncated line of the minimal branch contains no
newline character. -/
theorem compressed_noNl (text : String) :
    '\n' ∉ (takeChars 1200 (joinWith " " (pySplitlines (pyStrip text)))).toList :=
  takeChars_noNl 1200 _
    (joinWith_space_noNl _ (fun s hs => pySplitlines_noNl (pyStrip text) s hs))

/-- A successful fence match starts with a backtick and contains a newline. -/
theorem tryMatchAt_some_facts (cs : List Char) (x : String × List Char)
    (h : tryMatchAt cs = some x) : cs.head? = some btChar ∧ '\n' ∈ cs := by
  unfold tryMatchAt at h
  cases cs with
  | nil => cases h
  | cons a t1 =>
    cases t1 with
    | nil => cases h
    | cons b t2 =>
      cases t2 with
      | nil => cases h
      | cons c r =>
        dsimp only at h
        by_cases habc : (a = btChar && b = btChar && c = btChar) = true
        · rw [if_pos habc] at h
          have ha : a = btChar := by
            simp only [Bool.and_eq_true, decide_eq_true_eq] at habc
            exact habc.1.1
          refine ⟨by rw [ha]; rfl, ?_⟩
          cases hd : r.dropWhile isWordChar with
          | nil => rw [hd] at h; cases h
          | cons d r3 =>
            rw [hd] at h
            dsimp only at h
            by_cases hdn : d = '\n'
            · have hdr : d ∈ r.dropWhile isWordChar := by
                rw [hd]; exact List.mem_cons_self d r3
              have hmem : d ∈ r := (List.dropWhile_sublist isWordChar).mem hdr
              rw [hdn] at hmem
              exact List.mem_cons_of_mem a (List.mem_cons_of_mem b (List.mem_cons_of_mem c hmem))
            · rw [if_neg hdn] at h
              cases h
        · rw [if_neg habc] at h
          cases h

/-- No fence can match in a list where no newline occurs at or after the
first backtick. -/
theorem findFencesAux_nil (fuel : Nat) (cs : List Char)
    (h : '\n' ∉ cs.dropWhile (fun c => !(c = btChar))) :
    findFencesAux fuel cs = [] := by
  induction fuel generalizing cs with
  | zero => cases cs <;> rfl
  | succ f ih =>
    cases cs with
    | nil => rfl
    | cons c rest =>
      have htm : tryMatchAt (c :: rest) = none := by
        cases htm2 : tryMatchAt (c :: rest) with
        | none => rfl
        | some x =>
          obtain ⟨hhead, hnl⟩ := tryMatchAt_some_facts (c :: rest) x htm2
          have hcbt : c = btChar := by
            simpa using hhead
          exfalso
          apply h
          have : (c :: rest).dropWhile (fun c => !(c = btChar)) = c :: rest := by
            rw [List.dropWhile_cons]
            simp [hcbt]
          rw [this]
          exact hnl
      unfold findFencesAux
      rw [htm]
      apply ih
      intro hmem
      apply h
      by_cases hcbt : c = btChar
      · have h1 : (c :: rest).dropWhile (fun c => !(c = btChar)) = c :: rest := by
          rw [List.dropWhile_cons]
          simp [hcbt]
        rw [h1]
        exact List.mem_cons_of_mem c ((List.dropWhile_sublist _).mem hmem)
      · have h1 : (c :: rest).dropWhile (fun c => !(c = btChar)) =
            rest.dropWhile (fun c => !(c = btChar)) := by
          rw [List.dropWhile_cons]
          simp [hcbt]
        rw [h1]
        exact hmem

theorem findFences_nil_of_noNlAfterBt (cs : List Char)
    (h : '\n' ∉ cs.dropWhile (fun c => !(c = btChar))) : findFences cs = [] :=
  findFencesAux_nil cs.length cs h

theorem minimalPrefix_toList (C : String) :
    ("// response (minimal)\n" ++ C).toList =
      "// response (minimal)".toList ++ '\n' :: C.toList := by
  rw [toList_append]
  rfl

theorem minimal_out_ne_empty (C : String) : ("// response (minimal)\n" ++ C) ≠ "" := by
  intro he
  have h2 := congrArg String.toList he
  rw [minimalPrefix_toList] at h2
  simp at h2

/-- Splitting the minimal-form output back into lines gives the marker line
and the compressed line. -/
theorem pySplitlines_minimal (C : String) (hC : '\n' ∉ C.toList) (hCne : C ≠ "") :
    pySplitlines ("// response (minimal)\n" ++ C) = ["// response (minimal)", C] := by
  unfold pySplitlines
  rw [if_neg (minimal_out_ne_empty C)]
  rw [minimalPrefix_toList]
  rw [splitNl_app_nl _ _ (by decide), splitNl_of_noNl _ hC]
  simp only [List.map_cons, List.map_nil]
  have hCeta : (⟨C.toList⟩ : String) = C := rfl
  have hPeta : (⟨"// response (minimal)".toList⟩ : String) = "// response (minimal)" := rfl
  rw [hCeta, hPeta]
  have hlast : ([("// response (minimal)" : String), C].getLast? = some "") ↔ C = "" := by
    constructor
    · intro h
      simpa using h
    · intro h
      simp [h]
  rw [if_neg (fun h => hCne (hlast.mp h))]

/-- Re-running the extractor on a minimal-form output: no fence can appear
(the marker line has no backtick, the compressed line no newline), the
marker line itself is comment-like, so the second run takes the heuristic
branch when the compressed line is code-like and the minimal branch
otherwise. -/
theorem mm_of_minimal_output (C : String) (hC : '\n' ∉ C.toList) :
    strStartsWith (minimalize_response ("// response (minimal)\n" ++ C))
        "// response (minimal)" = true ∨
    strStartsWith (minimalize_response ("// response (minimal)\n" ++ C))
        "// code (heuristic)" = true := by
  have hfence : findFences ("// response (minimal)\n" ++ C).toList = [] := by
    apply findFences_nil_of_noNlAfterBt
    rw [minimalPrefix_toList]
    have hassoc : "// response (minimal)".toList ++ '\n' :: C.toList =
        ("// response (minimal)".toList ++ ['\n']) ++ C.toList := by simp
    rw [hassoc, dropWhile_app _ _ _ (by decide)]
    intro hmem
    exact hC ((List.dropWhile_sublist _).mem hmem)
  have hne := minimal_out_ne_empty C
  by_cases hCe : C = ""
  · subst hCe
    left
    rfl
  · have hsplit := pySplitlines_minimal C hC hCe
    have hP : isCodeLike (pyStrip "// response (minimal)") = true := by decide
    by_cases hCL : isCodeLike (pyStrip C) = true
    · right
      have hgroup : groupCodeLines (pySplitlines ("// response (minimal)\n" ++ C)) [] =
          ["// response (minimal)", C] := by
        rw [hsplit]
        simp [groupCodeLines, hP, hCL]
      have hCnb : pyStrip C ≠ "" := by
        intro he
        rw [he] at hCL
        exact absurd hCL (by decide)
      have hPnb : (pyStrip "// response (minimal)" != "") = true := by decide
      have hCnb2 : (pyStrip C != "") = true := by simpa using hCnb
      have hcount : 2 ≤ countNonBlank (groupCodeLines
          (pySplitlines ("// response (minimal)\n" ++ C)) []) := by
        rw [hgroup]
        simp [countNonBlank, List.filter, hPnb, hCnb2]
      rw [mm_heuristic_branch _ hne hfence hcount]
      unfold strStartsWith
      rw [toList_append]
      exact listPrefixEq_app _ _
    · left
      have hgroup : groupCodeLines (pySplitlines ("// response (minimal)\n" ++ C)) [] =
          ["// response (minimal)", ""] := by
        rw [hsplit]
        simp [groupCodeLines, hP, hCL]
      have hcount : countNonBlank (groupCodeLines
          (pySplitlines ("// response (minimal)\n" ++ C)) []) < 2 := by
        rw [hgroup]
        decide
      rw [mm_minimal_branch _ hne hfence hcount]
      unfold strStartsWith
      rw [toList_append]
      exact listPrefixEq_app _ _

/-- C9 (amended): for every non-empty text with no fenced blocks whose
extraction takes the minimal-form branch, running the extractor again on
its own output does not raise (the embedding is a total function) and
produces an output carrying the minimal-form marker, or the heuristic
marker in the case that the compressed line itself counts as code-like
(the marker line always does, see the counterexample). -/
theorem C9_minimal_rerun :
    ∀ text : String, text ≠ "" → findFences text.toList = [] →
      countNonBlank (groupCodeLines (pySplitlines text) []) < 2 →
      strStartsWith (minimalize_response (minimalize_response text))
          "// response (minimal)" = true ∨
      strStartsWith (minimalize_response (minimalize_response text))
          "// code (heuristic)" = true := by
  intro text htext hn hc
  rw [mm_minimal_branch text htext hn hc]
  exact mm_of_minimal_output _ (compressed_noNl text)

/-- Witness for C9: prose input stays in one of the two marker forms on a
second run. -/
theorem C9_witness :
    strStartsWith (minimalize_response (minimalize_response "hello world"))
        "// response (minimal)" = true ∨
    strStartsWith (minimalize_response (minimalize_response "hello world"))
        "// code (heuristic)" = true :=
  C9_minimal_rerun "hello world" (by decide) rfl (by decide)

/-- Counterexample for C9 as stated: the input x = 1 has no fences and takes
the minimal branch (last two conjuncts), but the second run yields the
heuristic marker rather than the minimal one: the first-run marker line
(a // comment) plus the code-like compressed line form two code-like
lines. -/
theorem C9_counterexample :
    strStartsWith (minimalize_response (minimalize_response "x = 1"))
        "// response (minimal)" = false ∧
    strStartsWith (minimalize_response (minimalize_response "x = 1"))
        "// code (heuristic)" = true ∧
    findFences ("x = 1").toList = [] ∧
    countNonBlank (groupCodeLines (pySplitlines "x = 1") []) < 2 :=
  ⟨rfl, rfl, rfl, by decide⟩

end PaperClip
